import Mathlib

/-!
Verification development for the chuk-mcp-geocoder core: a shallow embedding of
the rate-limited, caching, retrying Nominatim request layer
(`core/nominatim.py`) and the orchestration logic (`core/geocoder.py`),
together with theorems settling the specification claims.

Modelling conventions:
* Python floats are modelled as rationals (`ℚ`); the transcendental pieces
  (haversine via sin/cos/atan2/sqrt, cosine in the area formula, and decimal
  rounding of binary floats) are abstracted as parameters bundled in
  `FloatModel`, so every structural fact is proved for arbitrary
  instantiations of those functions.
* The HTTP transport and the Nominatim service are an oracle (`Env`): each
  orchestrator operation is a pure function of the oracle that also returns
  the list of client calls it performed, which makes "no network call is
  made" a provable statement.
* Python dict payloads are parsed records (`RawPlace`) with `Option` fields
  for keys that may be missing; Python truthiness tests (`if raw.get(k):`)
  are modelled exactly, including their treatment of `0` and `""` as absent.
-/

namespace Geo

/-! ## Configuration constants (constants.py) -/

def RATE_LIMIT_SECONDS : ℚ := 1

def CACHE_TTL_SECONDS : ℚ := 3600

def CACHE_MAX_SIZE : Nat := 1000

def MAX_RETRIES : Nat := 3

def RETRY_BASE_DELAY : ℚ := 2

def RETRYABLE_STATUS_CODES : List Nat := [429, 503]

def BATCH_MAX_QUERIES : Nat := 50

def DEFAULT_BBOX_BUFFER : ℚ := 1/100

/-- PLACE_RANK_BUFFERS: ordered (low, high) → buffer table from constants.py. -/
def PLACE_RANK_BUFFERS : List ((Int × Int) × ℚ) :=
  [((0, 4), 10), ((5, 8), 2), ((9, 12), 1/2), ((13, 16), 1/10),
   ((17, 20), 1/100), ((21, 26), 1/200), ((27, 30), 1/1000)]

/-- ADMIN_LEVEL_KEYS: (address key, level name) pairs in hierarchy order. -/
def ADMIN_LEVEL_KEYS : List (String × String) :=
  [("country", "country"), ("state", "state"), ("county", "county"),
   ("city", "city"), ("town", "town"), ("village", "village"),
   ("suburb", "suburb"), ("neighbourhood", "neighbourhood")]

/-- Zoom levels used by nearby_places, from ZoomLevel in constants.py. -/
def NEARBY_ZOOMS : List Nat := [18, 16, 14, 10]

/-! ## Error messages (constants.py ErrorMessages), as message builders. -/

/-- ASCII single-quote character, used by Python message templates. -/
def squote : String := String.singleton (Char.ofNat 39)

def NO_RESULTS (q : String) : String :=
  "No results found for query " ++ squote ++ q ++ squote

def INVALID_LAT (lat : ℚ) : String :=
  "Invalid latitude " ++ toString lat ++ ": must be between -90 and 90"

def INVALID_LON (lon : ℚ) : String :=
  "Invalid longitude " ++ toString lon ++ ": must be between -180 and 180"

def RATE_LIMITED_MSG : String :=
  "Nominatim rate limit exceeded. Please wait and retry."

def API_ERROR_MSG (status : Nat) (excerpt : String) : String :=
  "Nominatim API error (HTTP " ++ toString status ++ "): " ++ excerpt

def EMPTY_QUERY : String := "Query string cannot be empty"

def BATCH_EMPTY : String := "Queries list cannot be empty"

def BATCH_TOO_LARGE (n maxN : Nat) : String :=
  "Batch size " ++ toString n ++ " exceeds maximum of " ++ toString maxN

def WAYPOINTS_MIN : String := "Route requires at least 2 waypoints"

/-! ## Request executor (NominatimClient._request retry loop) -/

/-- One HTTP response as observed by `_request`: status code and body text. -/
structure HttpResponse where
  status : Nat
  text : String
deriving DecidableEq

/-- Terminal classification performed after the retry loop of `_request`. -/
inductive ReqOutcome where
  /-- status 200: body passed through to the caller. -/
  | ok (body : String)
  /-- status 429 after the loop: RuntimeError(RATE_LIMITED). -/
  | rateLimited (msg : String)
  /-- any other non-200 status after the loop:
      RuntimeError(API_ERROR.format(status, text[:200])). -/
  | apiError (status : Nat) (excerpt : String)
deriving DecidableEq

/-- The `for attempt in range(MAX_RETRIES + 1)` loop of
`NominatimClient._request`, lines 128-151 of core/nominatim.py.  `resp i` is
the response the service would give to the i-th attempt.  Returns the
response the loop stopped on, the number of attempts performed, and the list
of back-off delays slept between attempts. -/
def request_loop (resp : Nat → HttpResponse) (maxRetries : Nat) (attempt : Nat) :
    HttpResponse × Nat × List ℚ :=
  let r := resp attempt
  if h : r.status ∈ RETRYABLE_STATUS_CODES ∧ attempt < maxRetries then
    let rest := request_loop resp maxRetries (attempt + 1)
    (rest.1, rest.2.1, RETRY_BASE_DELAY * 2 ^ attempt :: rest.2.2)
  else
    (r, attempt + 1, [])
termination_by maxRetries - attempt
decreasing_by omega

/-- `NominatimClient._request` past the cache check: run the retry loop from
attempt 0, then classify the final status (lines 153-162). -/
def nominatim_request (resp : Nat → HttpResponse) (maxRetries : Nat) :
    ReqOutcome × Nat × List ℚ :=
  let res := request_loop resp maxRetries 0
  let r := res.1
  if r.status = 429 then (.rateLimited RATE_LIMITED_MSG, res.2.1, res.2.2)
  else if r.status ≠ 200 then
    (.apiError r.status (r.text.take 200), res.2.1, res.2.2)
  else (.ok r.text, res.2.1, res.2.2)

/-! ## Response cache (NominatimClient._cache_get / _cache_put)

The Python cache is an `OrderedDict`; we model it as an association list with
the least-recently-used binding at the head and the most-recently-used at the
end, which is exactly the order `move_to_end` / `popitem(last=False)`
maintain.  `del d[key]` removes the unique binding for `key`; since the dict
never holds duplicate keys this is a filter on the key. -/

structure CacheEntry (α : Type) where
  data : α
  timestamp : ℚ
deriving DecidableEq

abbrev Cache (α : Type) : Type := List (String × CacheEntry α)

def cacheKeys {α : Type} (c : Cache α) : List String := c.map (·.1)

def cacheLookup {α : Type} (key : String) (c : Cache α) : Option (CacheEntry α) :=
  (c.find? (fun p => p.1 = key)).map (·.2)

/-- `del self._cache[key]` on an OrderedDict with unique keys. -/
def cacheErase {α : Type} (key : String) (c : Cache α) : Cache α :=
  c.filter (fun p => p.1 ≠ key)

/-- `self._cache.move_to_end(key)` (only ever called with `key` present). -/
def cacheMoveToEnd {α : Type} (key : String) (c : Cache α) : Cache α :=
  match cacheLookup key c with
  | none => c
  | some e => cacheErase key c ++ [(key, e)]

/-- `NominatimClient._cache_get` (lines 87-97): absent if unseen; delete and
report absent if expired (strictly older than `ttl`); otherwise move to the
most-recent end and return the payload.  Returns (payload or none, new cache). -/
def cache_get {α : Type} (ttl : ℚ) (now : ℚ) (key : String) (c : Cache α) :
    Option α × Cache α :=
  match cacheLookup key c with
  | none => (none, c)
  | some e =>
    if now - e.timestamp > ttl then (none, cacheErase key c)
    else (some e.data, cacheMoveToEnd key c)

/-- `NominatimClient._cache_put` (lines 99-107): existing key is moved to the
end and overwritten; a new key first evicts the head (`popitem(last=False)`)
when the cache is at or over capacity. -/
def cache_put {α : Type} (maxSize : Nat) (now : ℚ) (key : String) (data : α)
    (c : Cache α) : Cache α :=
  if (cacheLookup key c).isSome then
    cacheErase key c ++ [(key, ⟨data, now⟩)]
  else
    let c2 := if maxSize ≤ c.length then c.drop 1 else c
    c2 ++ [(key, ⟨data, now⟩)]

/-- One cache operation, for stating invariants over operation sequences. -/
inductive CacheOp (α : Type) where
  | get (now : ℚ) (key : String)
  | put (now : ℚ) (key : String) (data : α)

def cacheStep {α : Type} (ttl : ℚ) (maxSize : Nat) (c : Cache α) :
    CacheOp α → Cache α
  | .get now key => (cache_get ttl now key c).2
  | .put now key data => cache_put maxSize now key data c

/-- Run a sequence of cache operations starting from the empty cache. -/
def cacheRun {α : Type} (ttl : ℚ) (maxSize : Nat) (ops : List (CacheOp α)) :
    Cache α :=
  ops.foldl (cacheStep ttl maxSize) []

/-- Size-and-uniqueness invariant of the cache. -/
def CacheInv {α : Type} (maxSize : Nat) (c : Cache α) : Prop :=
  (cacheKeys c).Nodup ∧ c.length ≤ maxSize

/-! ## Cache key derivation (NominatimClient._cache_key)

The key is `md5(f"{endpoint}:{json.dumps(normalized, sort_keys=True)}")` where
`normalized` lower-cases every string parameter and collapses its whitespace
runs (`" ".join(v.lower().split())`).  We model everything up to the hash;
md5 is an arbitrary function of the pre-hash string, so key equality follows
from pre-hash equality and key inequality holds except by hash coincidence. -/

/-- Whitespace characters recognised by `str.split()` (ASCII model). -/
def isWsChar (c : Char) : Bool :=
  c.toNat = 32 || c.toNat = 9 || c.toNat = 13 || c.toNat = 10

/-- `str.lower()` restricted to ASCII letters (model of Python lower). -/
def pyLowerChar (c : Char) : Char :=
  if 65 ≤ c.toNat ∧ c.toNat ≤ 90 then Char.ofNat (c.toNat + 32) else c

/-- Accumulator pass of `str.split()`: split into maximal non-whitespace runs,
dropping all whitespace. -/
def splitWsAux : List Char → List Char → List (List Char)
  | [], acc => if acc.isEmpty then [] else [acc.reverse]
  | c :: cs, acc =>
    if isWsChar c then
      if acc.isEmpty then splitWsAux cs [] else acc.reverse :: splitWsAux cs []
    else splitWsAux cs (c :: acc)

/-- Python `str.split()` with no argument. -/
def splitWs (l : List Char) : List (List Char) := splitWsAux l []

/-- `" ".join(v.lower().split())` from `_cache_key`. -/
def normalizeStr (s : String) : String :=
  String.intercalate " " ((splitWs (s.toList.map pyLowerChar)).map (fun t => String.mk t))

/-- A request parameter value: string parameters are normalized by
`_cache_key`; non-string parameters (ints such as limit/zoom) pass through. -/
inductive PValue where
  | str (s : String)
  | int (n : Int)
deriving DecidableEq

def normalizeVal : PValue → PValue
  | .str s => .str (normalizeStr s)
  | .int n => .int n

def normalizeParams (ps : List (String × PValue)) : List (String × PValue) :=
  ps.map (fun p => (p.1, normalizeVal p.2))

/-- Stable insertion of `x` after every element `y` with `le y x`; used to
model Python's stable sorts (`sorted`, `list.sort`). -/
def stableInsert {α : Type} (le : α → α → Bool) (x : α) : List α → List α
  | [] => [x]
  | y :: ys => if le y x then y :: stableInsert le x ys else x :: y :: ys

/-- Stable sort (model of Python's Timsort: stable, ascending by `le`). -/
def stableSort {α : Type} (le : α → α → Bool) (l : List α) : List α :=
  l.foldl (fun acc x => stableInsert le x acc) []

/-- Minimal JSON string escaping (backslash and double quote). -/
def jsonEscape (s : String) : String :=
  String.mk (s.toList.flatMap (fun c =>
    if c = Char.ofNat 92 then [Char.ofNat 92, Char.ofNat 92]
    else if c = Char.ofNat 34 then [Char.ofNat 92, Char.ofNat 34]
    else [c]))

def jsonDumpStr (s : String) : String := "\"" ++ jsonEscape s ++ "\""

def jsonDumpVal : PValue → String
  | .str s => jsonDumpStr s
  | .int n => toString n

/-- `json.dumps(d, sort_keys=True)` on a flat string-keyed mapping. -/
def jsonDumps (ps : List (String × PValue)) : String :=
  let sorted := stableSort (fun a b => a.1 ≤ b.1) ps
  "\x7b" ++
    String.intercalate ", " (sorted.map (fun p => jsonDumpStr p.1 ++ ": " ++ jsonDumpVal p.2)) ++
    "\x7d"

/-- The pre-hash string of `NominatimClient._cache_key` (lines 77-85); the
cache key is the md5 hex digest of this string. -/
def cache_key_raw (endpoint : String) (ps : List (String × PValue)) : String :=
  endpoint ++ ":" ++ jsonDumps (normalizeParams ps)

/-! Spec-side notion of "differing only in letter case and internal
whitespace runs": a string decomposes into an alternating sequence of
whitespace gaps and non-whitespace tokens plus trailing whitespace; two
strings are equivalent when their token sequences agree up to lower-casing
(gap widths and the leading/trailing whitespace are unconstrained). -/

/-- Reassemble a string from (gap, token) pieces plus trailing whitespace. -/
def glue (pieces : List (List Char × List Char)) (trail : List Char) : List Char :=
  (pieces.map (fun p => p.1 ++ p.2)).flatten ++ trail

/-- Well-formedness of a decomposition: gaps are whitespace, tokens are
nonempty and whitespace-free, and every gap after the first is nonempty
(so neighbouring tokens do not merge). -/
def PiecesOk (pieces : List (List Char × List Char)) : Prop :=
  (∀ p ∈ pieces,
    (∀ c ∈ p.1, isWsChar c = true) ∧ p.2 ≠ [] ∧ (∀ c ∈ p.2, isWsChar c = false)) ∧
  ∀ p ∈ pieces.tail, p.1 ≠ []

/-- Two strings differ only in letter case and/or whitespace-run widths. -/
def StrCaseWsEquiv (s₁ s₂ : String) : Prop :=
  ∃ pieces₁ pieces₂ trail₁ trail₂,
    PiecesOk pieces₁ ∧ PiecesOk pieces₂ ∧
    (∀ c ∈ trail₁, isWsChar c = true) ∧ (∀ c ∈ trail₂, isWsChar c = true) ∧
    s₁.toList = glue pieces₁ trail₁ ∧ s₂.toList = glue pieces₂ trail₂ ∧
    pieces₁.map (fun p => p.2.map pyLowerChar) =
      pieces₂.map (fun p => p.2.map pyLowerChar)

/-- Parameter values equivalent up to case/whitespace of string values. -/
def PValEquiv : PValue → PValue → Prop
  | .str a, .str b => StrCaseWsEquiv a b
  | a, b => a = b

/-- Parameter mappings that differ only in case/whitespace of string values. -/
def ParamsCaseWsEquiv (ps₁ ps₂ : List (String × PValue)) : Prop :=
  List.Forall₂ (fun a b => a.1 = b.1 ∧ PValEquiv a.2 b.2) ps₁ ps₂

/-! ## Geometry utilities (module-level functions of core/nominatim.py) -/

/-- A [west, south, east, north] bounding box. -/
structure Bbox where
  west : ℚ
  south : ℚ
  east : ℚ
  north : ℚ
deriving DecidableEq

/-! Python exception kinds distinguished by the code (by class and message). -/
inductive Err where
  | valueError (msg : String)
  | runtimeError (msg : String)
  | connectionError (msg : String)
  /-- models KeyError / missing-field failures from raw dict access -/
  | keyError (msg : String)
deriving DecidableEq

/-- `convert_bbox` (lines 246-259): Nominatim [min_lat, max_lat, min_lon,
max_lon] reordered to [west, south, east, north].  The float parsing of the
source strings is pre-applied; a list of the wrong arity raises (Python
unpacking ValueError). -/
def convert_bbox (nominatimBbox : List ℚ) : Except Err Bbox :=
  match nominatimBbox with
  | [minLat, maxLat, minLon, maxLon] => .ok ⟨minLon, minLat, maxLon, maxLat⟩
  | _ => .error (.valueError "unpack")

/-- `bbox_buffer_for_rank` (lines 262-276): first matching inclusive range of
PLACE_RANK_BUFFERS, else the default. -/
def bbox_buffer_for_rank (placeRank : Option Int) : ℚ :=
  match placeRank with
  | none => DEFAULT_BBOX_BUFFER
  | some r =>
    match PLACE_RANK_BUFFERS.find? (fun e => decide (e.1.1 ≤ r) && decide (r ≤ e.1.2)) with
    | some e => e.2
    | none => DEFAULT_BBOX_BUFFER

/-- `bbox_union` (lines 308-323): componentwise min/max; empty input is
[0, 0, 0, 0]. -/
def bbox_union (bboxes : List Bbox) : Bbox :=
  match bboxes with
  | [] => ⟨0, 0, 0, 0⟩
  | b :: rest =>
    ⟨rest.foldl (fun m x => min m x.west) b.west,
     rest.foldl (fun m x => min m x.south) b.south,
     rest.foldl (fun m x => max m x.east) b.east,
     rest.foldl (fun m x => max m x.north) b.north⟩

/-- The floating-point functions the geocoder uses, abstracted: haversine and
the cosine of the area formula are transcendental, and Python decimal
rounding of binary floats is not exactly representable; all structural claims
hold for every instantiation. -/
structure FloatModel where
  /-- `haversine_distance(lat1, lon1, lat2, lon2)` in metres. -/
  haversine_distance : ℚ → ℚ → ℚ → ℚ → ℚ
  /-- `math.cos(math.radians(x))`. -/
  cos_radians : ℚ → ℚ
  /-- Python `round(x, 1)`. -/
  round1 : ℚ → ℚ
  /-- Python `round(x, 2)`. -/
  round2 : ℚ → ℚ

/-- `compute_area_km2` (lines 279-292). -/
def compute_area_km2 (fm : FloatModel) (b : Bbox) : ℚ :=
  let midLat := (b.south + b.north) / 2
  let widthKm := (b.east - b.west) * (11132/100) * fm.cos_radians midLat
  let heightKm := (b.north - b.south) * (11132/100)
  |widthKm * heightKm|

/-! ## Raw service responses and parsed records (core/geocoder.py) -/

/-- A raw Nominatim place dict, with `Option` for keys that may be absent.
Numeric fields are pre-parsed to ℚ / Int (the Python code parses them with
`float`/`int` at use sites). -/
structure RawPlace where
  lat : Option ℚ
  lon : Option ℚ
  display_name : Option String
  boundingbox : Option (List ℚ)
  osm_type : Option String
  osm_id : Option Int
  importance : Option ℚ
  place_rank : Option Int
  address : Option (List (String × String))
  category : Option String
  place_type : Option String
deriving DecidableEq

/-- Truthiness of `raw.get(k)` for an optional number: Python treats 0 / 0.0
as falsy, so `int(raw[k]) if raw.get(k) else None` maps 0 to None. -/
def truthyInt (o : Option Int) : Option Int :=
  match o with
  | some n => if n = 0 then none else some n
  | none => none

def truthyRat (o : Option ℚ) : Option ℚ :=
  match o with
  | some q => if q = 0 then none else some q
  | none => none

/-- Truthiness of `raw.get("boundingbox")`: None and the empty list are falsy. -/
def truthyList (o : Option (List ℚ)) : Option (List ℚ) :=
  match o with
  | some l => if l.isEmpty then none else some l
  | none => none

structure GeocodeItem where
  lat : ℚ
  lon : ℚ
  display_name : String
  bbox : Bbox
  osm_type : Option String
  osm_id : Option Int
  importance : Option ℚ
  place_rank : Option Int
  address : Option (List (String × String))
  category : Option String
  place_type : Option String
deriving DecidableEq

structure ReverseResult where
  lat : ℚ
  lon : ℚ
  display_name : String
  address : List (String × String)
  bbox : Bbox
  osm_type : Option String
  osm_id : Option Int
  place_rank : Option Int
deriving DecidableEq

structure BboxResult where
  place_name : String
  bbox : Bbox
  center : ℚ × ℚ
  area_km2 : ℚ
deriving DecidableEq

structure NearbyItem where
  display_name : String
  lat : ℚ
  lon : ℚ
  distance_m : Option ℚ
  place_type : Option String
  osm_type : Option String
  importance : Option ℚ
deriving DecidableEq

structure AdminBoundaryItem where
  level : String
  name : String
  osm_type : Option String
  osm_id : Option Int
deriving DecidableEq

structure BatchItem where
  query : String
  results : Option (List GeocodeItem)
  error : Option String
deriving DecidableEq

structure RouteWaypointItem where
  name : String
  lat : ℚ
  lon : ℚ
  bbox : Bbox
deriving DecidableEq

structure RouteLegItem where
  from_name : String
  to_name : String
  distance_m : ℚ
deriving DecidableEq

structure RouteResult where
  waypoints : List RouteWaypointItem
  legs : List RouteLegItem
  total_distance_m : ℚ
  bbox : Bbox
deriving DecidableEq

/-- `Geocoder._parse_search_result` (lines 447-472).  `raw["lat"]` /
`raw["lon"]` raise on absence; the bbox is converted when `boundingbox` is
truthy, otherwise synthesized from `bbox_buffer_for_rank` where a
`place_rank` of 0 is read as absent by the truthiness test. -/
def parse_search_result (raw : RawPlace) : Except Err GeocodeItem :=
  match raw.lat with
  | none => .error (.keyError "lat")
  | some lat =>
    match raw.lon with
    | none => .error (.keyError "lon")
    | some lon =>
      let bboxE : Except Err Bbox :=
        match truthyList raw.boundingbox with
        | some l => convert_bbox l
        | none =>
          let rank := truthyInt raw.place_rank
          let buffer := bbox_buffer_for_rank rank
          .ok ⟨lon - buffer, lat - buffer, lon + buffer, lat + buffer⟩
      bboxE.map (fun bbox =>
        { lat := lat
          lon := lon
          display_name := raw.display_name.getD ""
          bbox := bbox
          osm_type := raw.osm_type
          osm_id := truthyInt raw.osm_id
          importance := truthyRat raw.importance
          place_rank := truthyInt raw.place_rank
          address := raw.address
          category := raw.category
          place_type := raw.place_type })

/-- `Geocoder._parse_reverse_result` (lines 474-494): missing lat/lon fall
back to the query coordinates; missing bbox falls back to a fixed ±0.001° box. -/
def parse_reverse_result (raw : RawPlace) (lat lon : ℚ) : Except Err ReverseResult :=
  let resultLat := raw.lat.getD lat
  let resultLon := raw.lon.getD lon
  let bboxE : Except Err Bbox :=
    match truthyList raw.boundingbox with
    | some l => convert_bbox l
    | none => .ok ⟨resultLon - 1/1000, resultLat - 1/1000, resultLon + 1/1000, resultLat + 1/1000⟩
  bboxE.map (fun bbox =>
    { lat := resultLat
      lon := resultLon
      display_name := raw.display_name.getD ""
      address := raw.address.getD []
      bbox := bbox
      osm_type := raw.osm_type
      osm_id := truthyInt raw.osm_id
      place_rank := truthyInt raw.place_rank })

/-! ## The client as an oracle, and instrumented orchestrator operations -/

/-- Structured viewbox (the Python code formats it as "x1,y1,x2,y2"). -/
structure Viewbox where
  x1 : ℚ
  y1 : ℚ
  x2 : ℚ
  y2 : ℚ
deriving DecidableEq

/-- Arguments of `NominatimClient.search`. -/
structure SearchArgs where
  q : String
  limit : Nat
  countrycodes : Option String
  viewbox : Option Viewbox
  bounded : Bool
  language : Option String
deriving DecidableEq

/-- One outbound client call, for observing network activity. -/
inductive ClientCall where
  | search (args : SearchArgs)
  | reverse (lat lon : ℚ) (zoom : Nat) (language : Option String)
deriving DecidableEq

/-- The NominatimClient boundary as an oracle: what `search` / `reverse`
return for given arguments (already shaped to list / single dict as the
client methods guarantee). -/
structure Env where
  search : SearchArgs → Except Err (List RawPlace)
  reverse : ℚ → ℚ → Nat → Option String → Except Err RawPlace

/-- Model of `f"{lat},{lon}"` used as the query of the nearby viewbox search;
opaque to the oracle. -/
def coordQuery (lat lon : ℚ) : String := toString lat ++ "," ++ toString lon

/-- A Python list comprehension whose body may raise: the first failure
propagates. -/
def mapExcept {α β : Type} (f : α → Except Err β) : List α → Except Err (List β)
  | [] => .ok []
  | a :: rest =>
    match f a with
    | .error e => .error e
    | .ok b =>
      match mapExcept f rest with
      | .error e => .error e
      | .ok bs => .ok (b :: bs)

/-- `Geocoder._validate_query` (lines 145-149): `not query or not
query.strip()`, i.e. empty or whitespace-only. -/
def queryInvalid (q : String) : Bool := q.toList.all isWsChar

/-- `Geocoder._validate_coordinates` (lines 137-143). -/
def validate_coordinates (lat lon : ℚ) : Option Err :=
  if ¬(-90 ≤ lat ∧ lat ≤ 90) then some (.valueError (INVALID_LAT lat))
  else if ¬(-180 ≤ lon ∧ lon ≤ 180) then some (.valueError (INVALID_LON lon))
  else none

/-- `Geocoder.geocode` (lines 153-180); also returns the client calls made. -/
def geocode (env : Env) (query : String) (limit : Nat)
    (countrycodes language : Option String) :
    Except Err (List GeocodeItem) × List ClientCall :=
  if queryInvalid query then (.error (.valueError EMPTY_QUERY), [])
  else
    match env.search ⟨query, limit, countrycodes, none, false, language⟩ with
    | .error e => (.error e, [.search ⟨query, limit, countrycodes, none, false, language⟩])
    | .ok raws =>
      if raws.isEmpty then (.error (.valueError (NO_RESULTS query)),
        [.search ⟨query, limit, countrycodes, none, false, language⟩])
      else (mapExcept parse_search_result raws,
        [.search ⟨query, limit, countrycodes, none, false, language⟩])

/-- `Geocoder.reverse_geocode` (lines 182-205). -/
def reverse_geocode (env : Env) (lat lon : ℚ) (zoom : Nat)
    (language : Option String) : Except Err ReverseResult × List ClientCall :=
  match validate_coordinates lat lon with
  | some e => (.error e, [])
  | none =>
    match env.reverse lat lon zoom language with
    | .error e => (.error e, [.reverse lat lon zoom language])
    | .ok raw => (parse_reverse_result raw lat lon, [.reverse lat lon zoom language])

/-- `Geocoder.bbox_from_place` (lines 207-241). -/
def bbox_from_place (fm : FloatModel) (env : Env) (query : String) (padding : ℚ) :
    Except Err BboxResult × List ClientCall :=
  if queryInvalid query then (.error (.valueError EMPTY_QUERY), [])
  else
    let args : SearchArgs := ⟨query, 1, none, none, false, none⟩
    match env.search args with
    | .error e => (.error e, [.search args])
    | .ok raws =>
      match raws with
      | [] => (.error (.valueError (NO_RESULTS query)), [.search args])
      | r :: _ =>
        match parse_search_result r with
        | .error e => (.error e, [.search args])
        | .ok item =>
          let bbox := item.bbox
          let bbox2 :=
            if padding > 0 then
              let width := bbox.east - bbox.west
              let height := bbox.north - bbox.south
              Bbox.mk (bbox.west - width * padding) (bbox.south - height * padding)
                (bbox.east + width * padding) (bbox.north + height * padding)
            else bbox
          let area := compute_area_km2 fm bbox2
          (.ok ⟨item.display_name, bbox2, (item.lon, item.lat), fm.round2 area⟩,
           [.search args])

/-- State carried through the probe loops of `nearby_places`. -/
structure NearbyState where
  seen : List String
  items : List NearbyItem
  calls : List ClientCall
deriving DecidableEq

/-- Shared per-place body of both loops in `nearby_places`: skip empty or
already-seen display names, else append a NearbyItem with the rounded
haversine distance from the query point. -/
def nearbyConsider (fm : FloatModel) (lat lon : ℚ) (st : NearbyState)
    (raw : RawPlace) : NearbyState :=
  let name := raw.display_name.getD ""
  if name = "" ∨ name ∈ st.seen then st
  else
    let resultLat := raw.lat.getD lat
    let resultLon := raw.lon.getD lon
    let dist := fm.haversine_distance lat lon resultLat resultLon
    { st with
      seen := st.seen ++ [name]
      items := st.items ++ [⟨name, resultLat, resultLon, some (fm.round1 dist),
        raw.place_type, raw.osm_type, truthyRat raw.importance⟩] }

/-- The zoom-probe loop of `nearby_places` (lines 268-291): each failing
probe is swallowed and the loop continues. -/
def nearbyZoomLoop (fm : FloatModel) (env : Env) (lat lon : ℚ) :
    List Nat → NearbyState → NearbyState
  | [], st => st
  | zoom :: rest, st =>
    let st1 :=
      match env.reverse lat lon zoom none with
      | .error _ => { st with calls := st.calls ++ [.reverse lat lon zoom none] }
      | .ok raw =>
        let st2 := nearbyConsider fm lat lon st raw
        { st2 with calls := st.calls ++ [.reverse lat lon zoom none] }
    nearbyZoomLoop fm env lat lon rest st1

/-- Sort key of `items.sort(key=lambda x: x.distance_m or float("inf"))`:
`None` and `0.0` are both falsy, so both map to infinity. -/
def nearbySortKey (i : NearbyItem) : WithTop ℚ :=
  match i.distance_m with
  | none => ⊤
  | some d => if d = 0 then ⊤ else (d : WithTop ℚ)

/-- `Geocoder.nearby_places` (lines 243-332). -/
def nearby_places (fm : FloatModel) (env : Env) (lat lon : ℚ) (limit : Nat)
    (categories : List String) : Except Err (List NearbyItem) × List ClientCall :=
  match validate_coordinates lat lon with
  | some e => (.error e, [])
  | none =>
    let st0 : NearbyState := ⟨[], [], []⟩
    let st1 := nearbyZoomLoop fm env lat lon NEARBY_ZOOMS st0
    let buffer : ℚ := 1/100
    let args : SearchArgs :=
      ⟨coordQuery lat lon, 5, none,
       some ⟨lon - buffer, lat - buffer, lon + buffer, lat + buffer⟩, true, none⟩
    let st2 :=
      match env.search args with
      | .error _ => { st1 with calls := st1.calls ++ [ClientCall.search args] }
      | .ok rs =>
        let st := rs.foldl (nearbyConsider fm lat lon) st1
        { st with calls := st1.calls ++ [ClientCall.search args] }
    let filtered :=
      if categories.isEmpty then st2.items
      else st2.items.filter (fun i =>
        match i.place_type with
        | some t => t ∈ categories
        | none => false)
    let sorted := stableSort (fun a b => nearbySortKey a ≤ nearbySortKey b) filtered
    (.ok (sorted.take limit), st2.calls)

/-- Association-list lookup modelling `key in address` / `address[key]`. -/
def assocLookup (key : String) (l : List (String × String)) : Option String :=
  (l.find? (fun p => p.1 = key)).map (·.2)

/-- `Geocoder.admin_boundaries` (lines 334-358). -/
def admin_boundaries (env : Env) (lat lon : ℚ) :
    Except Err (String × List AdminBoundaryItem) × List ClientCall :=
  match validate_coordinates lat lon with
  | some e => (.error e, [])
  | none =>
    match env.reverse lat lon 18 none with
    | .error e => (.error e, [.reverse lat lon 18 none])
    | .ok raw =>
      let displayName := raw.display_name.getD ""
      let address := raw.address.getD []
      let boundaries := ADMIN_LEVEL_KEYS.filterMap (fun kl =>
        (assocLookup kl.1 address).map (fun v => AdminBoundaryItem.mk kl.2 v none none))
      (.ok (displayName, boundaries), [.reverse lat lon 18 none])

/-- `str(e)` for a caught exception, as batch_geocode records it. -/
def errStr : Err → String
  | .valueError m => m
  | .runtimeError m => m
  | .connectionError m => m
  | .keyError m => m

/-- The per-query body of `batch_geocode`: geocode, catching any failure into
the item's error field. -/
def batchItemFor (env : Env) (limit : Nat) (query : String) :
    BatchItem × List ClientCall :=
  ((match (geocode env query limit none none).1 with
    | .ok results => (⟨query, some results, none⟩ : BatchItem)
    | .error e => ⟨query, none, some (errStr e)⟩),
   (geocode env query limit none none).2)

/-- `Geocoder.batch_geocode` (lines 362-394). -/
def batch_geocode (env : Env) (queries : List String) (limit : Nat) :
    Except Err (List BatchItem) × List ClientCall :=
  if queries.isEmpty then (.error (.valueError BATCH_EMPTY), [])
  else if BATCH_MAX_QUERIES < queries.length then
    (.error (.valueError (BATCH_TOO_LARGE queries.length BATCH_MAX_QUERIES)), [])
  else
    let step := fun (acc : List BatchItem × List ClientCall) (q : String) =>
      let r := batchItemFor env limit q
      (acc.1 ++ [r.1], acc.2 ++ r.2)
    let res := queries.foldl step ([], [])
    (.ok res.1, res.2)

/-- The waypoint-resolution loop of `route_waypoints` (lines 414-425): a
failing geocode aborts the whole route. -/
def resolveWaypoints (env : Env) : List String →
    Except Err (List RouteWaypointItem) × List ClientCall
  | [] => (.ok [], [])
  | wp :: rest =>
    match geocode env wp 1 none none with
    | (.error e, calls) => (.error e, calls)
    -- items[0] on an empty ok-list is unreachable: geocode never returns an empty ok
    | (.ok [], calls) => (.error (.keyError "index"), calls)
    | (.ok (item :: _), calls) =>
      match resolveWaypoints env rest with
      | (.error e, calls2) => (.error e, calls ++ calls2)
      | (.ok ws, calls2) =>
        (.ok (⟨item.display_name, item.lat, item.lon, item.bbox⟩ :: ws), calls ++ calls2)

/-- The leg loop of `route_waypoints` (lines 427-433): legs carry the rounded
distance, the running total accumulates the unrounded distances. -/
def makeLegs (fm : FloatModel) : List RouteWaypointItem → List RouteLegItem × ℚ
  | a :: b :: rest =>
    let dist := fm.haversine_distance a.lat a.lon b.lat b.lon
    let r := makeLegs fm (b :: rest)
    (⟨a.name, b.name, fm.round1 dist⟩ :: r.1, dist + r.2)
  | _ => ([], 0)

/-- `Geocoder.route_waypoints` (lines 396-443). -/
def route_waypoints (fm : FloatModel) (env : Env) (waypoints : List String) :
    Except Err RouteResult × List ClientCall :=
  if waypoints.length < 2 then (.error (.valueError WAYPOINTS_MIN), [])
  else
    match resolveWaypoints env waypoints with
    | (.error e, calls) => (.error e, calls)
    | (.ok resolved, calls) =>
      (.ok ⟨resolved, (makeLegs fm resolved).1, fm.round1 (makeLegs fm resolved).2,
        bbox_union (resolved.map (·.bbox))⟩, calls)

/-! ## Concrete instances used by witnesses and counterexamples -/

/-- Pieces decomposition of "Boulder, CO". -/
def boulderPieces1 : List (List Char × List Char) :=
  [([], "Boulder,".toList), ([Char.ofNat 32], "CO".toList)]

/-- Pieces decomposition of "boulder,  co". -/
def boulderPieces2 : List (List Char × List Char) :=
  [([], "boulder,".toList), ([Char.ofNat 32, Char.ofNat 32], "co".toList)]

/-- A raw search result with an explicit bounding box. -/
def rawG : RawPlace :=
  ⟨some 1, some 2, some "G", some [1, 2, 3, 4], none, none, none, none, none, none, none⟩

/-- `parse_search_result rawG`. -/
def itemG : GeocodeItem :=
  ⟨1, 2, "G", ⟨3, 1, 4, 2⟩, none, none, none, none, none, none, none⟩

/-- Oracle for the batch witness: query "good" resolves to one place, every
other query returns zero results. -/
def envB : Env :=
  ⟨fun args => if args.q = "good" then .ok [rawG] else .ok [],
   fun _ _ _ _ => .error (.connectionError "down")⟩

/-- Raw place "A" at (0, 0) with its own bounding box. -/
def rawA : RawPlace :=
  ⟨some 0, some 0, some "A", some [0, 1, 0, 1], none, none, none, none, none, none, none⟩

/-- Raw place "B" at (2, 2) with its own bounding box. -/
def rawB : RawPlace :=
  ⟨some 2, some 2, some "B", some [2, 3, 2, 3], none, none, none, none, none, none, none⟩

/-- Oracle for the route witness: "a" resolves to rawA, "b" to rawB. -/
def envR : Env :=
  ⟨fun args => if args.q = "a" then .ok [rawA] else if args.q = "b" then .ok [rawB] else .ok [],
   fun _ _ _ _ => .error (.connectionError "down")⟩

/-- A concrete FloatModel instantiation: constant haversine, exact rounding. -/
def fmW : FloatModel := ⟨fun _ _ _ _ => 111, fun _ => 1, fun x => x, fun x => x⟩

/-- The route obtained for waypoints ["a", "b"] under envR and fmW. -/
def resW : RouteResult :=
  ⟨[⟨"A", 0, 0, ⟨0, 0, 1, 1⟩⟩, ⟨"B", 2, 2, ⟨2, 2, 3, 3⟩⟩],
   [⟨"A", "B", 111⟩], 111, ⟨0, 0, 3, 3⟩⟩

/-- A raw search result with place_rank 0 and no bounding box. -/
def rawRank0 : RawPlace :=
  ⟨some 5, some 5, some "X", none, none, none, none, some 0, none, none, none⟩

/-- A raw reverse result with no lat/lon of its own (the parser falls back
to the query coordinates, so its distance from the query point is 0). -/
def rawP0 : RawPlace :=
  ⟨none, none, some "P0", none, none, none, none, none, none, none, none⟩

/-- A raw reverse result one degree of latitude away from (10, 10). -/
def rawP1 : RawPlace :=
  ⟨some 11, some 10, some "P1", none, none, none, none, none, none, none, none⟩

/-- Oracle for the nearby-places exhibit: the building-zoom probe returns a
place at the query point itself, the street-zoom probe a place ~111 km away,
every other probe and the viewbox search fail. -/
def envN : Env :=
  ⟨fun _ => .error (.connectionError "down"),
   fun _ _ zoom _ =>
     if zoom = 18 then .ok rawP0
     else if zoom = 16 then .ok rawP1
     else .error (.connectionError "down")⟩

/-- FloatModel for the nearby-places exhibit: haversine is 0 between equal
points (as the real haversine is) and 111194 otherwise; rounding is exact. -/
def fmN : FloatModel :=
  ⟨fun a b c d => if a = c ∧ b = d then 0 else 111194, fun _ => 1,
   fun x => x, fun x => x⟩

/-! ## Theorems -/

theorem request_loop_stop (resp : Nat → HttpResponse) (maxR attempt : Nat)
    (h : ¬((resp attempt).status ∈ RETRYABLE_STATUS_CODES ∧ attempt < maxR)) :
    request_loop resp maxR attempt = (resp attempt, attempt + 1, []) := by
  rw [request_loop]
  simp [h]

theorem request_loop_step (resp : Nat → HttpResponse) (maxR attempt : Nat)
    (h : (resp attempt).status ∈ RETRYABLE_STATUS_CODES ∧ attempt < maxR) :
    request_loop resp maxR attempt =
      ((request_loop resp maxR (attempt + 1)).1,
       (request_loop resp maxR (attempt + 1)).2.1,
       RETRY_BASE_DELAY * 2 ^ attempt :: (request_loop resp maxR (attempt + 1)).2.2) := by
  rw [request_loop]
  simp [h]

/-- C1: `_request` retries a 429/503 response with backoff delay
`RETRY_BASE_DELAY * 2^attempt`, so a single retryable status followed by a
200 succeeds with exactly 2 attempts; a final 429 after exhausting all
retries raises the distinct rate-limited error; a final non-200 other than
429 (such as an exhausted 503) raises the generic API error carrying the
status code and the body truncated to 200 characters; and a non-retryable
non-200 status fails immediately with a single attempt and no backoff. -/
theorem claim_C1 :
    (∀ resp : Nat → HttpResponse, (resp 0).status ∈ RETRYABLE_STATUS_CODES →
      (resp 1).status = 200 →
      nominatim_request resp MAX_RETRIES =
        (.ok (resp 1).text, 2, [RETRY_BASE_DELAY * 2 ^ 0])) ∧
    (∀ resp : Nat → HttpResponse, (∀ i, (resp i).status = 429) →
      nominatim_request resp MAX_RETRIES =
        (.rateLimited RATE_LIMITED_MSG, MAX_RETRIES + 1,
         [RETRY_BASE_DELAY * 2 ^ 0, RETRY_BASE_DELAY * 2 ^ 1, RETRY_BASE_DELAY * 2 ^ 2])) ∧
    (∀ resp : Nat → HttpResponse, (∀ i, (resp i).status = 503) →
      nominatim_request resp MAX_RETRIES =
        (.apiError 503 ((resp MAX_RETRIES).text.take 200), MAX_RETRIES + 1,
         [RETRY_BASE_DELAY * 2 ^ 0, RETRY_BASE_DELAY * 2 ^ 1, RETRY_BASE_DELAY * 2 ^ 2])) ∧
    (∀ (resp : Nat → HttpResponse) (s : Nat),
      (resp 0).status = s → s ∉ RETRYABLE_STATUS_CODES → s ≠ 200 →
      nominatim_request resp MAX_RETRIES =
        (.apiError s ((resp 0).text.take 200), 1, [])) := by
  refine ⟨?_, ?_, ?_, ?_⟩
  · intro resp h0 h1
    have l1 : request_loop resp MAX_RETRIES 1 = (resp 1, 2, []) := by
      apply request_loop_stop
      simp [RETRYABLE_STATUS_CODES, h1]
    have l0 := request_loop_step resp MAX_RETRIES 0 ⟨h0, by norm_num [MAX_RETRIES]⟩
    rw [l1] at l0
    simp only [nominatim_request, l0]
    simp [h1]
  · intro resp h
    have l3 : request_loop resp MAX_RETRIES 3 = (resp 3, 4, []) := by
      apply request_loop_stop
      simp [MAX_RETRIES]
    have l2 := request_loop_step resp MAX_RETRIES 2
      ⟨by simp [RETRYABLE_STATUS_CODES, h 2], by norm_num [MAX_RETRIES]⟩
    have l1 := request_loop_step resp MAX_RETRIES 1
      ⟨by simp [RETRYABLE_STATUS_CODES, h 1], by norm_num [MAX_RETRIES]⟩
    have l0 := request_loop_step resp MAX_RETRIES 0
      ⟨by simp [RETRYABLE_STATUS_CODES, h 0], by norm_num [MAX_RETRIES]⟩
    rw [l3] at l2; rw [l2] at l1; rw [l1] at l0
    simp only [nominatim_request, l0]
    simp [h 3, MAX_RETRIES]
  · intro resp h
    have l3 : request_loop resp MAX_RETRIES 3 = (resp 3, 4, []) := by
      apply request_loop_stop
      simp [MAX_RETRIES]
    have l2 := request_loop_step resp MAX_RETRIES 2
      ⟨by simp [RETRYABLE_STATUS_CODES, h 2], by norm_num [MAX_RETRIES]⟩
    have l1 := request_loop_step resp MAX_RETRIES 1
      ⟨by simp [RETRYABLE_STATUS_CODES, h 1], by norm_num [MAX_RETRIES]⟩
    have l0 := request_loop_step resp MAX_RETRIES 0
      ⟨by simp [RETRYABLE_STATUS_CODES, h 0], by norm_num [MAX_RETRIES]⟩
    rw [l3] at l2; rw [l2] at l1; rw [l1] at l0
    simp only [nominatim_request, l0]
    simp [h 3, MAX_RETRIES]
  · intro resp s h0 hnr h200
    have l0 : request_loop resp MAX_RETRIES 0 = (resp 0, 1, []) := by
      apply request_loop_stop
      simp [h0, hnr]
    simp only [nominatim_request, l0]
    have h429 : s ≠ 429 := by
      intro hc
      exact hnr (by simp [hc, RETRYABLE_STATUS_CODES])
    simp [h0, h429, h200]

set_option maxRecDepth 4000 in
theorem claim_C1_witness :
    nominatim_request (fun i => if i = 0 then ⟨503, "oops"⟩ else ⟨200, "payload"⟩)
        MAX_RETRIES = (.ok "payload", 2, [RETRY_BASE_DELAY * 2 ^ 0]) ∧
    nominatim_request (fun _ => ⟨429, "slow"⟩) MAX_RETRIES =
      (.rateLimited RATE_LIMITED_MSG, MAX_RETRIES + 1,
       [RETRY_BASE_DELAY * 2 ^ 0, RETRY_BASE_DELAY * 2 ^ 1, RETRY_BASE_DELAY * 2 ^ 2]) ∧
    nominatim_request (fun _ => ⟨503, "busy"⟩) MAX_RETRIES =
      (.apiError 503 "busy", MAX_RETRIES + 1,
       [RETRY_BASE_DELAY * 2 ^ 0, RETRY_BASE_DELAY * 2 ^ 1, RETRY_BASE_DELAY * 2 ^ 2]) ∧
    nominatim_request (fun _ => ⟨500, "boom"⟩) MAX_RETRIES =
      (.apiError 500 "boom", 1, []) := by
  refine ⟨?_, ?_, ?_, ?_⟩
  · have := claim_C1.1 (fun i => if i = 0 then ⟨503, "oops"⟩ else ⟨200, "payload"⟩)
      (by decide) (by decide)
    simpa using this
  · have := claim_C1.2.1 (fun _ => ⟨429, "slow"⟩) (fun _ => rfl)
    simpa using this
  · have := claim_C1.2.2.1 (fun _ => ⟨503, "busy"⟩) (fun _ => rfl)
    simpa using this
  · have := claim_C1.2.2.2 (fun _ => ⟨500, "boom"⟩) 500 rfl (by decide) (by decide)
    simpa using this

/-! ### Cache lemmas -/

theorem cacheLookup_eq_none_iff {α : Type} (key : String) (c : Cache α) :
    cacheLookup key c = none ↔ key ∉ cacheKeys c := by
  simp only [cacheLookup, Option.map_eq_none', List.find?_eq_none, decide_eq_true_eq,
    cacheKeys, List.mem_map]
  aesop

theorem cacheLookup_isSome_iff {α : Type} (key : String) (c : Cache α) :
    (cacheLookup key c).isSome = true ↔ key ∈ cacheKeys c := by
  constructor
  · intro hs
    by_contra hmem
    rw [← cacheLookup_eq_none_iff] at hmem
    rw [hmem] at hs
    simp at hs
  · intro hmem
    cases ho : cacheLookup key c with
    | none => exact absurd hmem ((cacheLookup_eq_none_iff key c).mp ho)
    | some e => simp

theorem not_mem_keys_cacheErase {α : Type} (key : String) (c : Cache α) :
    key ∉ cacheKeys (cacheErase key c) := by
  simp only [cacheKeys, cacheErase, List.mem_map, List.mem_filter]
  rintro ⟨p, ⟨_, hp⟩, hk⟩
  simp [hk] at hp

theorem keys_cacheErase_sublist {α : Type} (key : String) (c : Cache α) :
    (cacheKeys (cacheErase key c)).Sublist (cacheKeys c) :=
  List.Sublist.map _ (List.filter_sublist c)

theorem keys_drop_sublist {α : Type} (n : Nat) (c : Cache α) :
    (cacheKeys (c.drop n)).Sublist (cacheKeys c) :=
  List.Sublist.map _ (List.drop_sublist n c)

theorem cacheErase_eq_self {α : Type} {key : String} {c : Cache α}
    (h : key ∉ cacheKeys c) : cacheErase key c = c := by
  apply List.filter_eq_self.mpr
  intro x hx
  simp only [ne_eq, decide_not, Bool.not_eq_true', decide_eq_false_iff_not]
  intro hxk
  exact h (hxk ▸ List.mem_map_of_mem (fun p => p.1) hx)

theorem length_cacheErase_of_mem {α : Type} {key : String} {c : Cache α}
    (hnd : (cacheKeys c).Nodup) (hmem : key ∈ cacheKeys c) :
    (cacheErase key c).length + 1 = c.length := by
  induction c with
  | nil => simp [cacheKeys] at hmem
  | cons p rest ih =>
    have hkeys : cacheKeys (p :: rest) = p.1 :: cacheKeys rest := rfl
    rw [hkeys, List.nodup_cons] at hnd
    rcases hnd with ⟨hp, hrest⟩
    by_cases hk : p.1 = key
    · have hkey : key ∉ cacheKeys rest := hk ▸ hp
      have step : cacheErase key (p :: rest) = cacheErase key rest := by
        simp [cacheErase, hk]
      rw [step, cacheErase_eq_self hkey]
      simp
    · have hmem' : key ∈ cacheKeys rest := by
        rw [hkeys] at hmem
        rcases List.mem_cons.mp hmem with h1 | h2
        · exact absurd h1.symm hk
        · exact h2
      have step : cacheErase key (p :: rest) = p :: cacheErase key rest := by
        simp [cacheErase, hk]
      rw [step]
      have := ih hrest hmem'
      simp only [List.length_cons]
      omega

theorem cacheLookup_append_right {α : Type} (key : String) (c₁ c₂ : Cache α)
    (h : key ∉ cacheKeys c₁) : cacheLookup key (c₁ ++ c₂) = cacheLookup key c₂ := by
  have hnone : c₁.find? (fun p => p.1 = key) = none := by
    have := (cacheLookup_eq_none_iff key c₁).mpr h
    simpa [cacheLookup, Option.map_eq_none'] using this
  simp [cacheLookup, List.find?_append, hnone]

theorem nodup_keys_append_single {α : Type} {c : Cache α} {key : String}
    {e : CacheEntry α} (h1 : (cacheKeys c).Nodup) (h2 : key ∉ cacheKeys c) :
    (cacheKeys (c ++ [(key, e)])).Nodup := by
  have hk : cacheKeys (c ++ [(key, e)]) = cacheKeys c ++ [key] := by
    simp [cacheKeys]
  rw [hk]
  refine List.Nodup.append h1 (List.nodup_singleton key) ?_
  intro a ha hb
  rw [List.mem_singleton] at hb
  exact h2 (hb ▸ ha)

/-! Branch-resolution lemmas for cache_get / cache_put. -/

theorem cache_get_absent {α : Type} {ttl now : ℚ} {key : String} {c : Cache α}
    (h : cacheLookup key c = none) : cache_get ttl now key c = (none, c) := by
  unfold cache_get
  rw [h]

theorem cache_get_expired {α : Type} {ttl now : ℚ} {key : String} {c : Cache α}
    {e : CacheEntry α} (h : cacheLookup key c = some e)
    (hexp : now - e.timestamp > ttl) :
    cache_get ttl now key c = (none, cacheErase key c) := by
  unfold cache_get
  rw [h]
  simp only [if_pos hexp]

theorem cache_get_fresh {α : Type} {ttl now : ℚ} {key : String} {c : Cache α}
    {e : CacheEntry α} (h : cacheLookup key c = some e)
    (hexp : ¬(now - e.timestamp > ttl)) :
    cache_get ttl now key c = (some e.data, cacheErase key c ++ [(key, e)]) := by
  unfold cache_get
  rw [h]
  simp only [if_neg hexp, cacheMoveToEnd, h]

theorem cache_put_existing {α : Type} {maxSize : Nat} {now : ℚ} {key : String}
    {data : α} {c : Cache α} (h : (cacheLookup key c).isSome) :
    cache_put maxSize now key data c = cacheErase key c ++ [(key, ⟨data, now⟩)] := by
  unfold cache_put
  rw [if_pos h]

theorem cache_put_new {α : Type} {maxSize : Nat} {now : ℚ} {key : String}
    {data : α} {c : Cache α} (h : key ∉ cacheKeys c) :
    cache_put maxSize now key data c =
      (if maxSize ≤ c.length then c.drop 1 else c) ++ [(key, ⟨data, now⟩)] := by
  have hn : ¬(cacheLookup key c).isSome = true := by
    rw [cacheLookup_isSome_iff]
    exact h
  unfold cache_put
  rw [if_neg hn]

theorem cacheLookup_cache_put {α : Type} (maxSize : Nat) (now : ℚ) (key : String)
    (data : α) (c : Cache α) :
    cacheLookup key (cache_put maxSize now key data c) = some ⟨data, now⟩ := by
  have hsingle : cacheLookup key [(key, (⟨data, now⟩ : CacheEntry α))] = some ⟨data, now⟩ := by
    simp [cacheLookup]
  by_cases hs : (cacheLookup key c).isSome
  · rw [cache_put_existing hs,
      cacheLookup_append_right key _ _ (not_mem_keys_cacheErase key c), hsingle]
  · have hnot : key ∉ cacheKeys c := by
      rw [← cacheLookup_isSome_iff]
      simpa using hs
    rw [cache_put_new hnot]
    refine Eq.trans (cacheLookup_append_right key _ _ ?_) hsingle
    intro hmem
    by_cases hlen : maxSize ≤ c.length
    · rw [if_pos hlen] at hmem
      exact hnot ((keys_drop_sublist 1 c).mem hmem)
    · rw [if_neg hlen] at hmem
      exact hnot hmem

theorem cacheInv_put {α : Type} {maxSize : Nat} {c : Cache α} (now : ℚ) (key : String)
    (data : α) (hm : 1 ≤ maxSize) (h : CacheInv maxSize c) :
    CacheInv maxSize (cache_put maxSize now key data c) := by
  rcases h with ⟨hnd, hlen⟩
  by_cases hs : (cacheLookup key c).isSome
  · rw [cache_put_existing hs]
    have hmem : key ∈ cacheKeys c := (cacheLookup_isSome_iff key c).mp hs
    refine ⟨nodup_keys_append_single ((keys_cacheErase_sublist key c).nodup hnd)
      (not_mem_keys_cacheErase key c), ?_⟩
    have := length_cacheErase_of_mem hnd hmem
    simp only [List.length_append, List.length_cons, List.length_nil]
    omega
  · have hnot : key ∉ cacheKeys c := by
      rw [← cacheLookup_isSome_iff]
      simpa using hs
    rw [cache_put_new hnot]
    by_cases hcap : maxSize ≤ c.length
    · rw [if_pos hcap]
      refine ⟨nodup_keys_append_single ((keys_drop_sublist 1 c).nodup hnd)
        (fun hmem => hnot ((keys_drop_sublist 1 c).mem hmem)), ?_⟩
      simp only [List.length_append, List.length_drop, List.length_cons, List.length_nil]
      omega
    · rw [if_neg hcap]
      refine ⟨nodup_keys_append_single hnd hnot, ?_⟩
      simp only [List.length_append, List.length_cons, List.length_nil]
      omega

theorem cacheInv_get {α : Type} {maxSize : Nat} {c : Cache α} (ttl now : ℚ)
    (key : String) (h : CacheInv maxSize c) :
    CacheInv maxSize (cache_get ttl now key c).2 := by
  rcases h with ⟨hnd, hlen⟩
  cases hl : cacheLookup key c with
  | none =>
    rw [cache_get_absent hl]
    exact ⟨hnd, hlen⟩
  | some e =>
    by_cases hexp : now - e.timestamp > ttl
    · rw [cache_get_expired hl hexp]
      exact ⟨(keys_cacheErase_sublist key c).nodup hnd,
        le_trans (by simpa [cacheErase] using List.length_filter_le _ c) hlen⟩
    · rw [cache_get_fresh hl hexp]
      have hmem : key ∈ cacheKeys c := by
        rw [← cacheLookup_isSome_iff, hl]
        rfl
      refine ⟨nodup_keys_append_single ((keys_cacheErase_sublist key c).nodup hnd)
        (not_mem_keys_cacheErase key c), ?_⟩
      have := length_cacheErase_of_mem hnd hmem
      simp only [List.length_append, List.length_cons, List.length_nil]
      omega

theorem cacheInv_run {α : Type} (ttl : ℚ) (maxSize : Nat) (hm : 1 ≤ maxSize)
    (ops : List (CacheOp α)) : CacheInv maxSize (cacheRun ttl maxSize ops) := by
  suffices h : ∀ (c : Cache α), CacheInv maxSize c →
      CacheInv maxSize (ops.foldl (cacheStep ttl maxSize) c) by
    exact h [] ⟨List.nodup_nil, by simp⟩
  induction ops with
  | nil => intro c hc; exact hc
  | cons op rest ih =>
    intro c hc
    apply ih
    cases op with
    | get now k => exact cacheInv_get ttl now k hc
    | put now k d => exact cacheInv_put now k d hm hc

theorem mem_keys_append_single {α : Type} (c : Cache α) (key : String)
    (e : CacheEntry α) : key ∈ cacheKeys (c ++ [(key, e)]) := by
  simp [cacheKeys]

/-- C2: starting from the empty cache, any sequence of get/put operations
keeps the entry count at or below the configured maximum; a put of a new key
when the cache is exactly at capacity evicts precisely the
least-recently-used (head) entry and appends the new binding at the
most-recent end; a put of an existing key keeps the size, stores the new
payload and timestamp under the key, and moves it to the most-recent end;
and a fresh get moves the accessed key to the most-recent end, so a
following capacity eviction (triggered by a put of a new key) does not evict
it. -/
theorem claim_C2 :
    (∀ (α : Type) (ttl : ℚ) (maxSize : Nat) (ops : List (CacheOp α)),
      1 ≤ maxSize → (cacheRun ttl maxSize ops).length ≤ maxSize) ∧
    (∀ (α : Type) (maxSize : Nat) (now : ℚ) (key : String) (data : α) (c : Cache α),
      c.length = maxSize → key ∉ cacheKeys c →
      cache_put maxSize now key data c = c.drop 1 ++ [(key, ⟨data, now⟩)]) ∧
    (∀ (α : Type) (maxSize : Nat) (now : ℚ) (key : String) (data : α) (c : Cache α),
      (cacheKeys c).Nodup → key ∈ cacheKeys c →
      (cache_put maxSize now key data c).length = c.length ∧
      cacheLookup key (cache_put maxSize now key data c) = some ⟨data, now⟩ ∧
      (cache_put maxSize now key data c).getLast? = some (key, ⟨data, now⟩)) ∧
    (∀ (α : Type) (ttl : ℚ) (maxSize : Nat) (now now2 : ℚ) (key key2 : String)
      (data : α) (c : Cache α) (e : CacheEntry α),
      (cacheKeys c).Nodup → 2 ≤ c.length → key2 ∉ cacheKeys c →
      cacheLookup key c = some e → ¬(now - e.timestamp > ttl) →
      (cache_get ttl now key c).2.getLast? = some (key, e) ∧
      key ∈ cacheKeys (cache_put maxSize now2 key2 data (cache_get ttl now key c).2)) := by
  refine ⟨?_, ?_, ?_, ?_⟩
  · intro α ttl maxSize ops hm
    exact (cacheInv_run ttl maxSize hm ops).2
  · intro α maxSize now key data c hlen hkey
    rw [cache_put_new hkey, if_pos (le_of_eq hlen.symm)]
  · intro α maxSize now key data c hnd hmem
    have hs : (cacheLookup key c).isSome := (cacheLookup_isSome_iff key c).mpr hmem
    refine ⟨?_, cacheLookup_cache_put maxSize now key data c, ?_⟩
    · rw [cache_put_existing hs]
      have := length_cacheErase_of_mem hnd hmem
      simp only [List.length_append, List.length_cons, List.length_nil]
      omega
    · rw [cache_put_existing hs]
      exact List.getLast?_concat _
  · intro α ttl maxSize now now2 key key2 data c e hnd hlen hkey2 hl hfresh
    have hc' : cache_get ttl now key c = (some e.data, cacheErase key c ++ [(key, e)]) :=
      cache_get_fresh hl hfresh
    have hmemkey : key ∈ cacheKeys c := by
      rw [← cacheLookup_isSome_iff, hl]
      rfl
    refine ⟨by rw [hc']; exact List.getLast?_concat _, ?_⟩
    rw [hc']
    set c' : Cache α := cacheErase key c ++ [(key, e)] with hcdef
    have hkey2c' : key2 ∉ cacheKeys c' := by
      intro hmem
      have hsplit : cacheKeys c' = cacheKeys (cacheErase key c) ++ [key] := by
        simp [hcdef, cacheKeys]
      rw [hsplit, List.mem_append, List.mem_singleton] at hmem
      rcases hmem with h1 | h2
      · exact hkey2 ((keys_cacheErase_sublist key c).mem h1)
      · exact hkey2 (h2 ▸ hmemkey)
    rw [cache_put_new hkey2c']
    have hlenerase : (cacheErase key c).length + 1 = c.length :=
      length_cacheErase_of_mem hnd hmemkey
    by_cases hcap : maxSize ≤ c'.length
    · rw [if_pos hcap]
      have h1le : 1 ≤ (cacheErase key c).length := by omega
      have hdrop : c'.drop 1 = (cacheErase key c).drop 1 ++ [(key, e)] := by
        rw [hcdef]
        exact List.drop_append_of_le_length h1le
      rw [hdrop]
      simp [cacheKeys]
    · rw [if_neg hcap]
      simp [hcdef, cacheKeys]

theorem claim_C2_witness :
    (1 ≤ 2 ∧
      (cacheRun 3600 2 [CacheOp.put (0 : ℚ) "a" "pa", CacheOp.put 1 "b" "pb",
        CacheOp.put 2 "c" "pc", CacheOp.get 3 "a"]).length ≤ 2) ∧
    (cache_put 2 5 "c" "pc" [("a", ⟨"pa", 0⟩), ("b", ⟨"pb", 1⟩)] =
      ([("a", (⟨"pa", 0⟩ : CacheEntry String)), ("b", ⟨"pb", 1⟩)].drop 1 ++
        [("c", ⟨"pc", 5⟩)])) ∧
    ((cache_put 2 5 "a" "qa" [("a", ⟨"pa", 0⟩), ("b", ⟨"pb", 1⟩)]).length = 2 ∧
      cacheLookup "a" (cache_put 2 5 "a" "qa" [("a", ⟨"pa", 0⟩), ("b", ⟨"pb", 1⟩)]) =
        some ⟨"qa", 5⟩ ∧
      (cache_put 2 5 "a" "qa" [("a", ⟨"pa", 0⟩), ("b", ⟨"pb", 1⟩)]).getLast? =
        some ("a", ⟨"qa", 5⟩)) ∧
    ((cache_get 3600 10 "a" [("a", ⟨"pa", 0⟩), ("b", ⟨"pb", 1⟩)]).2.getLast? =
        some ("a", ⟨"pa", 0⟩) ∧
      "a" ∈ cacheKeys (cache_put 2 20 "c" "pc"
        (cache_get 3600 10 "a" [("a", ⟨"pa", 0⟩), ("b", ⟨"pb", 1⟩)]).2)) := by
  refine ⟨⟨by norm_num, ?_⟩, ?_, ?_, ?_⟩
  · exact claim_C2.1 String 3600 2 _ (by norm_num)
  · exact claim_C2.2.1 String 2 5 "c" "pc" _ rfl (by decide)
  · exact claim_C2.2.2.1 String 2 5 "a" "qa" _ (by decide) (by decide)
  · exact claim_C2.2.2.2 String 3600 2 10 20 "a" "c" "pc" _ ⟨"pa", 0⟩
      (by decide) (by decide) (by decide) (by decide) (by norm_num)

/-- C3: an entry stored under a key at time T is returned by a get at any
time now with now - T ≤ TTL; a get at any later time with now - T > TTL
reports the key absent and removes the entry; a get for a key never stored
reports absent and leaves the cache unchanged. -/
theorem claim_C3 :
    ∀ (α : Type) (ttl : ℚ) (maxSize : Nat) (T now : ℚ) (key : String) (p : α)
      (c : Cache α),
      (now - T ≤ ttl →
        (cache_get ttl now key (cache_put maxSize T key p c)).1 = some p) ∧
      (now - T > ttl →
        (cache_get ttl now key (cache_put maxSize T key p c)).1 = none ∧
        key ∉ cacheKeys (cache_get ttl now key (cache_put maxSize T key p c)).2) ∧
      (key ∉ cacheKeys c → cache_get ttl now key c = (none, c)) := by
  intro α ttl maxSize T now key p c
  have hl := cacheLookup_cache_put maxSize T key p c
  refine ⟨?_, ?_, ?_⟩
  · intro hfresh
    have hne : ¬(now - (⟨p, T⟩ : CacheEntry α).timestamp > ttl) := not_lt.mpr hfresh
    rw [cache_get_fresh hl hne]
  · intro hexp
    rw [cache_get_expired hl hexp]
    exact ⟨rfl, not_mem_keys_cacheErase key _⟩
  · intro habs
    exact cache_get_absent ((cacheLookup_eq_none_iff key c).mpr habs)

theorem claim_C3_witness :
    ((3600 : ℚ) - 0 ≤ CACHE_TTL_SECONDS ∧
      (cache_get CACHE_TTL_SECONDS 3600 "k"
        (cache_put CACHE_MAX_SIZE 0 "k" "v" ([] : Cache String))).1 = some "v") ∧
    ((3601 : ℚ) - 0 > CACHE_TTL_SECONDS ∧
      (cache_get CACHE_TTL_SECONDS 3601 "k"
        (cache_put CACHE_MAX_SIZE 0 "k" "v" ([] : Cache String))).1 = none) ∧
    cache_get CACHE_TTL_SECONDS 3601 "nope" ([] : Cache String) =
      (none, ([] : Cache String)) := by
  refine ⟨⟨by norm_num [CACHE_TTL_SECONDS], ?_⟩, ⟨by norm_num [CACHE_TTL_SECONDS], ?_⟩, ?_⟩
  · exact (claim_C3 String CACHE_TTL_SECONDS CACHE_MAX_SIZE 0 3600 "k" "v" []).1
      (by norm_num [CACHE_TTL_SECONDS])
  · exact ((claim_C3 String CACHE_TTL_SECONDS CACHE_MAX_SIZE 0 3601 "k" "v" []).2.1
      (by norm_num [CACHE_TTL_SECONDS])).1
  · exact (claim_C3 String CACHE_TTL_SECONDS CACHE_MAX_SIZE 0 3601 "nope" "v" []).2.2
      (by decide)

/-! ### Cache-key normalization lemmas (C4) -/

theorem splitWsAux_skip_ws (g l : List Char) (hg : ∀ c ∈ g, isWsChar c = true) :
    splitWsAux (g ++ l) [] = splitWsAux l [] := by
  induction g with
  | nil => rfl
  | cons c g' ih =>
    have hc : isWsChar c = true := hg c (List.mem_cons_self c g')
    have hg' : ∀ x ∈ g', isWsChar x = true := fun x hx => hg x (List.mem_cons_of_mem c hx)
    simp only [List.cons_append, splitWsAux, hc, if_true, List.isEmpty_nil]
    exact ih hg'

theorem splitWsAux_token (t : List Char) (ht : ∀ c ∈ t, isWsChar c = false) :
    ∀ (l acc : List Char), splitWsAux (t ++ l) acc = splitWsAux l (t.reverse ++ acc) := by
  induction t with
  | nil => intro l acc; simp
  | cons c t' ih =>
    intro l acc
    have hc : isWsChar c = false := ht c (List.mem_cons_self c t')
    have ht' : ∀ x ∈ t', isWsChar x = false := fun x hx => ht x (List.mem_cons_of_mem c hx)
    calc splitWsAux ((c :: t') ++ l) acc = splitWsAux (t' ++ l) (c :: acc) := by
          simp [splitWsAux, hc]
      _ = splitWsAux l (t'.reverse ++ (c :: acc)) := ih ht' l (c :: acc)
      _ = splitWsAux l ((c :: t').reverse ++ acc) := by simp

theorem splitWsAux_ws_flush (w acc : List Char) (hw : ∀ c ∈ w, isWsChar c = true)
    (hacc : acc ≠ []) : splitWsAux w acc = [acc.reverse] := by
  cases w with
  | nil =>
    simp only [splitWsAux, List.isEmpty_iff]
    rw [if_neg hacc]
  | cons c w' =>
    have hc : isWsChar c = true := hw c (List.mem_cons_self c w')
    have hw' : ∀ x ∈ w', isWsChar x = true := fun x hx => hw x (List.mem_cons_of_mem c hx)
    have hne : ¬(acc.isEmpty = true) := by
      simpa [List.isEmpty_iff] using hacc
    simp only [splitWsAux, hc, if_true]
    rw [if_neg hne]
    have : splitWsAux w' [] = [] := by
      have := splitWsAux_skip_ws w' [] hw'
      simpa using this
    rw [this]

theorem splitWs_glue (pieces : List (List Char × List Char)) (trail : List Char)
    (hp : PiecesOk pieces) (htr : ∀ c ∈ trail, isWsChar c = true) :
    splitWs (glue pieces trail) = pieces.map (·.2) := by
  induction pieces with
  | nil =>
    simp only [glue, List.map_nil, List.flatten_nil, List.nil_append, splitWs]
    have := splitWsAux_skip_ws trail [] htr
    simpa using this
  | cons p rest ih =>
    rcases hp with ⟨hall, htail⟩
    rcases hall p (List.mem_cons_self p rest) with ⟨hgap, htok, htokws⟩
    have hrest : PiecesOk rest := by
      refine ⟨fun q hq => hall q (List.mem_cons_of_mem p hq), ?_⟩
      intro q hq
      exact htail q ((List.tail_sublist rest).mem hq)
    have hglue : glue (p :: rest) trail = p.1 ++ (p.2 ++ glue rest trail) := by
      simp [glue]
    rw [List.map_cons]
    rw [splitWs, hglue, splitWsAux_skip_ws p.1 _ hgap, splitWsAux_token p.2 htokws]
    have hrev : p.2.reverse ++ [] = p.2.reverse := by simp
    rw [hrev]
    have hrevne : p.2.reverse ≠ [] := by
      simpa using htok
    cases hr : rest with
    | nil =>
      have hgr : glue [] trail = trail := by simp [glue]
      rw [hgr]
      rw [splitWsAux_ws_flush trail p.2.reverse htr hrevne]
      simp
    | cons q rest' =>
      have hq1 : q.1 ≠ [] := htail q (by simp [hr])
      cases hq : q.1 with
      | nil => exact absurd hq hq1
      | cons c g' =>
        have hqgap : ∀ x ∈ q.1, isWsChar x = true :=
          (hall q (by simp [hr])).1
        have hc : isWsChar c = true := hqgap c (by simp [hq])
        have hg' : ∀ x ∈ g', isWsChar x = true := fun x hx => hqgap x (by simp [hq, hx])
        have hglue2 : glue (q :: rest') trail = c :: (g' ++ (q.2 ++ glue rest' trail)) := by
          simp [glue, hq]
        rw [hglue2]
        have hne : ¬((p.2.reverse).isEmpty = true) := by
          simpa [List.isEmpty_iff] using hrevne
        simp only [splitWsAux, hc, if_true]
        rw [if_neg hne]
        have hihs : splitWsAux (g' ++ (q.2 ++ glue rest' trail)) [] =
            (q :: rest').map (·.2) := by
          have hthis := ih hrest
          rw [hr] at hthis
          have hglue3 : glue (q :: rest') trail = q.1 ++ (q.2 ++ glue rest' trail) := by
            simp [glue]
          rw [splitWs, hglue3, splitWsAux_skip_ws q.1 _ hqgap] at hthis
          rw [splitWsAux_skip_ws g' (q.2 ++ glue rest' trail) hg']
          exact hthis
        rw [hihs]
        simp

theorem toNat_ofNat_of_valid (n : Nat) (h : n.isValidChar) :
    (Char.ofNat n).toNat = n := by
  unfold Char.ofNat
  rw [dif_pos h]
  unfold Char.ofNatAux Char.toNat
  simp [UInt32.toNat]

theorem isWsChar_pyLowerChar (c : Char) : isWsChar (pyLowerChar c) = isWsChar c := by
  unfold pyLowerChar
  split
  case isTrue h =>
    have hvalid : (c.toNat + 32).isValidChar := by
      left
      omega
    have htoNat : (Char.ofNat (c.toNat + 32)).toNat = c.toNat + 32 :=
      toNat_ofNat_of_valid _ hvalid
    have h1 : isWsChar c = false := by
      simp only [isWsChar, Bool.or_eq_false_iff, decide_eq_false_iff_not]
      omega
    have h2 : isWsChar (Char.ofNat (c.toNat + 32)) = false := by
      simp only [isWsChar, Bool.or_eq_false_iff, decide_eq_false_iff_not, htoNat]
      omega
    rw [h1, h2]
  case isFalse h => rfl

theorem map_pyLowerChar_glue (pieces : List (List Char × List Char)) (trail : List Char) :
    (glue pieces trail).map pyLowerChar =
      glue (pieces.map (fun p => (p.1.map pyLowerChar, p.2.map pyLowerChar)))
        (trail.map pyLowerChar) := by
  simp only [glue, List.map_append, List.map_flatten, List.map_map]
  congr 1
  congr 1
  apply List.map_congr_left
  intro p _
  simp

theorem piecesOk_map_pyLowerChar (pieces : List (List Char × List Char))
    (h : PiecesOk pieces) :
    PiecesOk (pieces.map (fun p => (p.1.map pyLowerChar, p.2.map pyLowerChar))) := by
  rcases h with ⟨hall, htail⟩
  constructor
  · intro q hq
    rcases List.mem_map.mp hq with ⟨p, hp, hpq⟩
    rcases hall p hp with ⟨h1, h2, h3⟩
    refine ⟨?_, ?_, ?_⟩
    · intro c hc
      rw [← hpq] at hc
      simp only at hc
      rcases List.mem_map.mp hc with ⟨d, hd, hdc⟩
      rw [← hdc, isWsChar_pyLowerChar]
      exact h1 d hd
    · rw [← hpq]
      simpa using h2
    · intro c hc
      rw [← hpq] at hc
      simp only at hc
      rcases List.mem_map.mp hc with ⟨d, hd, hdc⟩
      rw [← hdc, isWsChar_pyLowerChar]
      exact h3 d hd
  · intro q hq
    rw [← List.map_tail] at hq
    rcases List.mem_map.mp hq with ⟨p, hp, hpq⟩
    have := htail p hp
    rw [← hpq]
    simpa using this

theorem normalizeStr_equiv {s₁ s₂ : String} (h : StrCaseWsEquiv s₁ s₂) :
    normalizeStr s₁ = normalizeStr s₂ := by
  rcases h with ⟨p₁, p₂, t₁, t₂, hp₁, hp₂, ht₁, ht₂, hs₁, hs₂, htoks⟩
  unfold normalizeStr
  rw [hs₁, hs₂, map_pyLowerChar_glue, map_pyLowerChar_glue]
  rw [splitWs_glue _ _ (piecesOk_map_pyLowerChar p₁ hp₁)
    (by intro c hc; rcases List.mem_map.mp hc with ⟨d, hd, hdc⟩;
        rw [← hdc, isWsChar_pyLowerChar]; exact ht₁ d hd)]
  rw [splitWs_glue _ _ (piecesOk_map_pyLowerChar p₂ hp₂)
    (by intro c hc; rcases List.mem_map.mp hc with ⟨d, hd, hdc⟩;
        rw [← hdc, isWsChar_pyLowerChar]; exact ht₂ d hd)]
  have hx : (p₁.map (fun p => (p.1.map pyLowerChar, p.2.map pyLowerChar))).map (·.2) =
      (p₂.map (fun p => (p.1.map pyLowerChar, p.2.map pyLowerChar))).map (·.2) := by
    simp only [List.map_map]
    exact htoks
  rw [hx]

theorem normalizeVal_equiv {a b : PValue} (h : PValEquiv a b) :
    normalizeVal a = normalizeVal b := by
  cases a with
  | str sa =>
    cases b with
    | str sb =>
      have h' : StrCaseWsEquiv sa sb := h
      simp only [normalizeVal]
      rw [normalizeStr_equiv h']
    | int nb =>
      have h' : PValue.str sa = PValue.int nb := h
      exact PValue.noConfusion h'
  | int na =>
    cases b with
    | str sb =>
      have h' : PValue.int na = PValue.str sb := h
      exact PValue.noConfusion h'
    | int nb =>
      have h' : PValue.int na = PValue.int nb := h
      rw [h']

theorem normalizeParams_equiv {ps₁ ps₂ : List (String × PValue)}
    (h : ParamsCaseWsEquiv ps₁ ps₂) : normalizeParams ps₁ = normalizeParams ps₂ := by
  induction h with
  | nil => rfl
  | cons hab hrest ih =>
    rename_i a b l₁ l₂
    rcases hab with ⟨hk, hv⟩
    have hval := normalizeVal_equiv hv
    simp only [normalizeParams, List.map_cons] at ih ⊢
    rw [hk, hval, ih]

/-- C4: two parameter mappings for the same endpoint that differ only in the
letter case and/or internal whitespace runs of their string-valued
parameters produce the same pre-hash cache-key string (hence the same md5
key for any hash function); and mappings whose normalized canonical
serializations differ produce different pre-hash strings, so their keys
differ except by hash coincidence. -/
theorem claim_C4 :
    (∀ (endpoint : String) (ps₁ ps₂ : List (String × PValue))
      (md5 : String → String), ParamsCaseWsEquiv ps₁ ps₂ →
      cache_key_raw endpoint ps₁ = cache_key_raw endpoint ps₂ ∧
      md5 (cache_key_raw endpoint ps₁) = md5 (cache_key_raw endpoint ps₂)) ∧
    (∀ (endpoint : String) (ps₁ ps₂ : List (String × PValue)),
      jsonDumps (normalizeParams ps₁) ≠ jsonDumps (normalizeParams ps₂) →
      cache_key_raw endpoint ps₁ ≠ cache_key_raw endpoint ps₂) := by
  constructor
  · intro endpoint ps₁ ps₂ md5 h
    have : cache_key_raw endpoint ps₁ = cache_key_raw endpoint ps₂ := by
      unfold cache_key_raw
      rw [normalizeParams_equiv h]
    exact ⟨this, by rw [this]⟩
  · intro endpoint ps₁ ps₂ hne heq
    apply hne
    unfold cache_key_raw at heq
    have : (endpoint ++ ":").data ++ (jsonDumps (normalizeParams ps₁)).data =
        (endpoint ++ ":").data ++ (jsonDumps (normalizeParams ps₂)).data := by
      have h1 := congrArg String.data heq
      simpa [String.data_append, List.append_assoc] using h1
    have hdata := List.append_cancel_left this
    exact String.ext hdata

theorem claim_C4_witness :
    cache_key_raw "search" [("q", .str "Boulder, CO"), ("limit", .int 5)] =
      cache_key_raw "search" [("q", .str "boulder,  co"), ("limit", .int 5)] ∧
    jsonDumps (normalizeParams [("q", PValue.str "denver")]) ≠
      jsonDumps (normalizeParams [("q", PValue.str "boulder")]) ∧
    cache_key_raw "search" [("q", .str "denver")] ≠
      cache_key_raw "search" [("q", .str "boulder")] := by
  have hstr : StrCaseWsEquiv "Boulder, CO" "boulder,  co" := by
    refine ⟨boulderPieces1, boulderPieces2, [], [], ?_, ?_, ?_, ?_, ?_, ?_, ?_⟩
    · constructor
      · decide
      · decide
    · constructor
      · decide
      · decide
    · decide
    · decide
    · decide
    · decide
    · decide
  have hequiv : ParamsCaseWsEquiv
      [("q", PValue.str "Boulder, CO"), ("limit", PValue.int 5)]
      [("q", PValue.str "boulder,  co"), ("limit", PValue.int 5)] := by
    refine List.Forall₂.cons ⟨rfl, ?_⟩ (List.Forall₂.cons ⟨rfl, ?_⟩ List.Forall₂.nil)
    · exact hstr
    · rfl
  have hne : jsonDumps (normalizeParams [("q", PValue.str "denver")]) ≠
      jsonDumps (normalizeParams [("q", PValue.str "boulder")]) := by decide
  exact ⟨(claim_C4.1 "search" _ _ id hequiv).1, hne, claim_C4.2 "search" _ _ hne⟩

/-! ### Batch geocoding lemmas (C5, C10) -/

theorem mapExcept_ok_length {α β : Type} (f : α → Except Err β) :
    ∀ (l : List α) (r : List β), mapExcept f l = .ok r → r.length = l.length := by
  intro l
  induction l with
  | nil =>
    intro r h
    simp only [mapExcept] at h
    cases h
    rfl
  | cons a rest ih =>
    intro r h
    simp only [mapExcept] at h
    cases hfa : f a with
    | error e => rw [hfa] at h; cases h
    | ok b =>
      rw [hfa] at h
      cases hrest : mapExcept f rest with
      | error e => rw [hrest] at h; cases h
      | ok bs =>
        rw [hrest] at h
        cases h
        simp [ih bs hrest]

theorem geocode_ok_ne_nil {env : Env} {q : String} {limit : Nat}
    {cc lang : Option String} {rs : List GeocodeItem}
    (h : (geocode env q limit cc lang).1 = .ok rs) : rs ≠ [] := by
  unfold geocode at h
  by_cases hq : queryInvalid q
  · rw [if_pos hq] at h
    cases h
  · rw [if_neg hq] at h
    cases hs : env.search ⟨q, limit, cc, none, false, lang⟩ with
    | error e =>
      rw [hs] at h
      dsimp only at h
      cases h
    | ok raws =>
      rw [hs] at h
      dsimp only at h
      by_cases he : raws.isEmpty
      · rw [if_pos he] at h
        cases h
      · rw [if_neg he] at h
        intro hnil
        have hlen := mapExcept_ok_length parse_search_result raws rs h
        rw [hnil] at hlen
        exact he (by
          cases raws with
          | nil => rfl
          | cons x xs => simp at hlen)

theorem batch_foldl_fst (env : Env) (limit : Nat) :
    ∀ (queries : List String) (acc : List BatchItem × List ClientCall),
      (queries.foldl (fun acc q =>
        let r := batchItemFor env limit q
        (acc.1 ++ [r.1], acc.2 ++ r.2)) acc).1 =
      acc.1 ++ queries.map (fun q => (batchItemFor env limit q).1) := by
  intro queries
  induction queries with
  | nil => intro acc; simp
  | cons q rest ih =>
    intro acc
    simp only [List.foldl_cons, List.map_cons]
    rw [ih]
    simp

/-- C5: batch_geocode raises a validation error on an empty queries list and
on one longer than 50; otherwise it never raises: it returns exactly one
BatchItem per query, in input order, each item built independently from its
own query's geocode outcome (results populated on success, the stringified
error recorded on failure), so one query's failure does not abort or skip
the others; and exactly one of results/error is set on every item. -/
theorem claim_C5 :
    (∀ (env : Env) (limit : Nat),
      batch_geocode env [] limit = (.error (.valueError BATCH_EMPTY), [])) ∧
    (∀ (env : Env) (limit : Nat) (queries : List String),
      BATCH_MAX_QUERIES < queries.length →
      batch_geocode env queries limit =
        (.error (.valueError (BATCH_TOO_LARGE queries.length BATCH_MAX_QUERIES)), [])) ∧
    (∀ (env : Env) (limit : Nat) (queries : List String), queries ≠ [] →
      queries.length ≤ BATCH_MAX_QUERIES →
      (batch_geocode env queries limit).1 =
        .ok (queries.map (fun q => (batchItemFor env limit q).1))) ∧
    (∀ (env : Env) (limit : Nat) (q : String) (rs : List GeocodeItem),
      (geocode env q limit none none).1 = .ok rs →
      (batchItemFor env limit q).1 = ⟨q, some rs, none⟩) ∧
    (∀ (env : Env) (limit : Nat) (q : String) (e : Err),
      (geocode env q limit none none).1 = .error e →
      (batchItemFor env limit q).1 = ⟨q, none, some (errStr e)⟩) ∧
    (∀ (env : Env) (limit : Nat) (q : String),
      (batchItemFor env limit q).1.results = none ↔
      ¬((batchItemFor env limit q).1.error = none)) := by
  refine ⟨?_, ?_, ?_, ?_, ?_, ?_⟩
  · intro env limit
    rfl
  · intro env limit queries hlen
    unfold batch_geocode
    have hne : ¬(queries.isEmpty = true) := by
      cases queries with
      | nil => simp [BATCH_MAX_QUERIES] at hlen
      | cons a l => simp
    rw [if_neg hne, if_pos hlen]
  · intro env limit queries hne hlen
    unfold batch_geocode
    have hne' : ¬(queries.isEmpty = true) := by
      simpa [List.isEmpty_iff] using hne
    rw [if_neg hne', if_neg (not_lt.mpr hlen)]
    simp only
    rw [batch_foldl_fst env limit queries ([], [])]
    simp
  · intro env limit q rs h
    unfold batchItemFor
    rw [h]
  · intro env limit q e h
    unfold batchItemFor
    rw [h]
  · intro env limit q
    unfold batchItemFor
    cases h : (geocode env q limit none none).1 with
    | error e => simp
    | ok rs => simp

theorem claim_C5_witness :
    batch_geocode envB [] 1 = (.error (.valueError BATCH_EMPTY), []) ∧
    ((50 : Nat) < (List.replicate 51 "x").length ∧
      batch_geocode envB (List.replicate 51 "x") 1 =
        (.error (.valueError (BATCH_TOO_LARGE 51 50)), [])) ∧
    (batch_geocode envB ["good", "bad"] 1).1 =
      .ok [⟨"good", some [itemG], none⟩,
           ⟨"bad", none, some (NO_RESULTS "bad")⟩] := by
  refine ⟨claim_C5.1 envB 1, ⟨by simp, ?_⟩, ?_⟩
  · have h := claim_C5.2.1 envB 1 (List.replicate 51 "x") (by simp [BATCH_MAX_QUERIES])
    simpa [BATCH_MAX_QUERIES] using h
  · have h := claim_C5.2.2.1 envB 1 ["good", "bad"] (by decide) (by decide)
    rw [h]
    exact congrArg Except.ok (by decide)

/-- C10: in every successful batch result, an item whose error field is
unset carries a non-empty results list — a query with zero raw results is
recorded as a per-item error (geocode raises on an empty result sequence),
never as an empty results list. -/
theorem claim_C10 :
    ∀ (env : Env) (limit : Nat) (queries : List String) (items : List BatchItem),
      (batch_geocode env queries limit).1 = .ok items →
      ∀ it ∈ items, it.error = none → ∃ rs, it.results = some rs ∧ rs ≠ [] := by
  intro env limit queries items h it hmem herr
  by_cases hne : queries.isEmpty
  · unfold batch_geocode at h
    rw [if_pos hne] at h
    cases h
  · by_cases hlen : BATCH_MAX_QUERIES < queries.length
    · unfold batch_geocode at h
      rw [if_neg hne, if_pos hlen] at h
      cases h
    · have hok := claim_C5.2.2.1 env limit queries
        (by simpa [List.isEmpty_iff] using hne) (not_lt.mp hlen)
      rw [h] at hok
      have hitems : items = queries.map (fun q => (batchItemFor env limit q).1) := by
        injection hok
      rw [hitems] at hmem
      rcases List.mem_map.mp hmem with ⟨q, hq, hitem⟩
      cases hg : (geocode env q limit none none).1 with
      | error e =>
        have := claim_C5.2.2.2.2.1 env limit q e hg
        rw [this] at hitem
        rw [← hitem] at herr
        cases herr
      | ok rs =>
        have := claim_C5.2.2.2.1 env limit q rs hg
        rw [this] at hitem
        rw [← hitem]
        exact ⟨rs, rfl, geocode_ok_ne_nil hg⟩

theorem claim_C10_witness :
    ∃ rs, (BatchItem.mk "good" (some [itemG]) none).results = some rs ∧ rs ≠ [] := by
  have hok : (batch_geocode envB ["good", "bad"] 1).1 =
      .ok [⟨"good", some [itemG], none⟩, ⟨"bad", none, some (NO_RESULTS "bad")⟩] := by
    have h := claim_C5.2.2.1 envB 1 ["good", "bad"] (by decide) (by decide)
    rw [h]
    exact congrArg Except.ok (by decide)
  exact claim_C10 envB 1 ["good", "bad"] _ hok
    ⟨"good", some [itemG], none⟩ (by decide) rfl

/-! ### Route lemmas (C6) -/

theorem resolveWaypoints_ok {env : Env} :
    ∀ (wps : List String) (res : List RouteWaypointItem) (calls : List ClientCall),
      resolveWaypoints env wps = (.ok res, calls) →
      List.Forall₂ (fun wp w => ∃ item rest,
        (geocode env wp 1 none none).1 = .ok (item :: rest) ∧
        w = RouteWaypointItem.mk item.display_name item.lat item.lon item.bbox) wps res := by
  intro wps
  induction wps with
  | nil =>
    intro res calls h
    simp only [resolveWaypoints, Prod.mk.injEq] at h
    rcases h with ⟨h1, _⟩
    injection h1 with h1
    rw [← h1]
    exact List.Forall₂.nil
  | cons wp rest ih =>
    intro res calls h
    rw [resolveWaypoints] at h
    rcases hg : geocode env wp 1 none none with ⟨r1, calls1⟩
    rw [hg] at h
    cases r1 with
    | error e =>
      dsimp only at h
      rw [Prod.mk.injEq] at h
      cases h.1
    | ok items =>
      cases items with
      | nil =>
        dsimp only at h
        rw [Prod.mk.injEq] at h
        cases h.1
      | cons item more =>
        dsimp only at h
        rcases hrr : resolveWaypoints env rest with ⟨rr1, calls2⟩
        rw [hrr] at h
        cases rr1 with
        | error e =>
          dsimp only at h
          rw [Prod.mk.injEq] at h
          cases h.1
        | ok ws =>
          dsimp only at h
          rw [Prod.mk.injEq] at h
          have h1 := h.1
          injection h1 with h1
          rw [← h1]
          refine List.Forall₂.cons ⟨item, more, by rw [hg], rfl⟩ ?_
          exact ih ws calls2 hrr

theorem makeLegs_length (fm : FloatModel) :
    ∀ ws : List RouteWaypointItem, (makeLegs fm ws).1.length = ws.length - 1 := by
  intro ws
  induction ws with
  | nil => rfl
  | cons a tail ih =>
    cases tail with
    | nil => rfl
    | cons b rest =>
      simp only [makeLegs, List.length_cons]
      have := ih
      simp only [makeLegs, List.length_cons] at this ⊢
      omega

theorem makeLegs_get (fm : FloatModel) :
    ∀ (ws : List RouteWaypointItem) (i : Nat) (a b : RouteWaypointItem),
      ws[i]? = some a → ws[i + 1]? = some b →
      (makeLegs fm ws).1[i]? = some ⟨a.name, b.name,
        fm.round1 (fm.haversine_distance a.lat a.lon b.lat b.lon)⟩ := by
  intro ws
  induction ws with
  | nil => intro i a b ha _; simp at ha
  | cons x tail ih =>
    intro i a b ha hb
    cases tail with
    | nil =>
      cases i with
      | zero => simp at hb
      | succ j => simp at ha
    | cons y rest =>
      cases i with
      | zero =>
        simp only [List.getElem?_cons_zero, Option.some.injEq] at ha
        have hb' : (y :: rest)[0]? = some b := by simpa using hb
        simp only [List.getElem?_cons_zero, Option.some.injEq] at hb'
        rw [← ha, ← hb']
        simp [makeLegs]
      | succ j =>
        have ha' : (y :: rest)[j]? = some a := by simpa using ha
        have hb' : (y :: rest)[j + 1]? = some b := by simpa using hb
        have := ih j a b ha' hb'
        simpa [makeLegs] using this

theorem makeLegs_sum_bound (fm : FloatModel) (hr : ∀ x : ℚ, |fm.round1 x - x| ≤ 1/20) :
    ∀ ws : List RouteWaypointItem,
      |(makeLegs fm ws).2 - ((makeLegs fm ws).1.map (fun l => l.distance_m)).sum| ≤
        ((makeLegs fm ws).1.length : ℚ) * (1/20) := by
  intro ws
  induction ws with
  | nil => simp [makeLegs]
  | cons a tail ih =>
    cases tail with
    | nil => simp [makeLegs]
    | cons b rest =>
      simp only [makeLegs, List.map_cons, List.sum_cons, List.length_cons]
      have hd : |fm.haversine_distance a.lat a.lon b.lat b.lon -
          fm.round1 (fm.haversine_distance a.lat a.lon b.lat b.lon)| ≤ 1/20 := by
        rw [abs_sub_comm]
        exact hr _
      have hstep :
          fm.haversine_distance a.lat a.lon b.lat b.lon + (makeLegs fm (b :: rest)).2 -
            (fm.round1 (fm.haversine_distance a.lat a.lon b.lat b.lon) +
              ((makeLegs fm (b :: rest)).1.map (fun l => l.distance_m)).sum) =
          (fm.haversine_distance a.lat a.lon b.lat b.lon -
            fm.round1 (fm.haversine_distance a.lat a.lon b.lat b.lon)) +
          ((makeLegs fm (b :: rest)).2 -
            ((makeLegs fm (b :: rest)).1.map (fun l => l.distance_m)).sum) := by
        ring
      rw [hstep]
      calc |_ + _| ≤ _ + _ := abs_add _ _
        _ ≤ 1/20 + ((makeLegs fm (b :: rest)).1.length : ℚ) * (1/20) := by
            exact add_le_add hd ih
        _ ≤ (((makeLegs fm (b :: rest)).1.length : ℚ) + 1) * (1/20) := by ring_nf; linarith
        _ = _ := by push_cast; ring

/-- C6: route_waypoints rejects fewer than two waypoints with a validation
error and no network call; on success the resolved waypoints correspond to
the input waypoints in input order (each the first geocode hit of its
query), the number of legs is the number of waypoints minus one, leg i joins
resolved waypoints i and i+1 with the rounded haversine distance between
them, the returned bbox is the componentwise union of the resolved
waypoints' bboxes, and — whenever rounding moves a value by at most 0.05 —
the total distance (the rounded sum of the unrounded leg distances) differs
from the sum of the rounded leg distances by at most (legs+1)·0.05. -/
theorem claim_C6 :
    (∀ (fm : FloatModel) (env : Env) (wps : List String), wps.length < 2 →
      route_waypoints fm env wps = (.error (.valueError WAYPOINTS_MIN), [])) ∧
    (∀ (fm : FloatModel) (env : Env) (wps : List String) (res : RouteResult)
      (calls : List ClientCall), route_waypoints fm env wps = (.ok res, calls) →
      res.waypoints.length = wps.length ∧
      List.Forall₂ (fun wp w => ∃ item rest,
        (geocode env wp 1 none none).1 = .ok (item :: rest) ∧
        w = RouteWaypointItem.mk item.display_name item.lat item.lon item.bbox)
        wps res.waypoints ∧
      res.legs.length = res.waypoints.length - 1 ∧
      (∀ (i : Nat) (a b : RouteWaypointItem),
        res.waypoints[i]? = some a → res.waypoints[i + 1]? = some b →
        res.legs[i]? = some ⟨a.name, b.name,
          fm.round1 (fm.haversine_distance a.lat a.lon b.lat b.lon)⟩) ∧
      res.bbox = bbox_union (res.waypoints.map (fun w => w.bbox)) ∧
      ((∀ x : ℚ, |fm.round1 x - x| ≤ 1/20) →
        |res.total_distance_m - (res.legs.map (fun l => l.distance_m)).sum| ≤
          ((res.legs.length : ℚ) + 1) * (1/20))) := by
  constructor
  · intro fm env wps hlen
    rw [route_waypoints, if_pos hlen]
  · intro fm env wps res calls h
    rw [route_waypoints] at h
    by_cases hlen : wps.length < 2
    · rw [if_pos hlen] at h
      cases h
    · rw [if_neg hlen] at h
      rcases hrw : resolveWaypoints env wps with ⟨r1, calls1⟩
      rw [hrw] at h
      cases r1 with
      | error e =>
        dsimp only at h
        rw [Prod.mk.injEq] at h
        cases h.1
      | ok resolved =>
        dsimp only at h
        rw [Prod.mk.injEq] at h
        have h1 := h.1
        injection h1 with h1
        have hfa := resolveWaypoints_ok wps resolved calls1 hrw
        have hlenres : resolved.length = wps.length := hfa.length_eq.symm
        rw [← h1]
        refine ⟨hlenres, hfa, makeLegs_length fm resolved, ?_, rfl, ?_⟩
        · intro i a b ha hb
          exact makeLegs_get fm resolved i a b ha hb
        · intro hr
          have hb := makeLegs_sum_bound fm hr resolved
          have h2 : |fm.round1 (makeLegs fm resolved).2 - (makeLegs fm resolved).2| ≤
              1/20 := hr _
          have h3 := abs_add (fm.round1 (makeLegs fm resolved).2 - (makeLegs fm resolved).2)
            ((makeLegs fm resolved).2 -
              ((makeLegs fm resolved).1.map (fun l => l.distance_m)).sum)
          have h4 : fm.round1 (makeLegs fm resolved).2 - (makeLegs fm resolved).2 +
              ((makeLegs fm resolved).2 -
                ((makeLegs fm resolved).1.map (fun l => l.distance_m)).sum) =
              fm.round1 (makeLegs fm resolved).2 -
                ((makeLegs fm resolved).1.map (fun l => l.distance_m)).sum := by ring
          rw [h4] at h3
          calc |fm.round1 (makeLegs fm resolved).2 -
              ((makeLegs fm resolved).1.map (fun l => l.distance_m)).sum| ≤
              |fm.round1 (makeLegs fm resolved).2 - (makeLegs fm resolved).2| +
              |(makeLegs fm resolved).2 -
                ((makeLegs fm resolved).1.map (fun l => l.distance_m)).sum| := h3
            _ ≤ 1/20 + ((makeLegs fm resolved).1.length : ℚ) * (1/20) := add_le_add h2 hb
            _ = (((makeLegs fm resolved).1.length : ℚ) + 1) * (1/20) := by ring

theorem claim_C6_witness :
    route_waypoints fmW envR ["a", "b"] =
      (.ok resW,
       [.search ⟨"a", 1, none, none, false, none⟩,
        .search ⟨"b", 1, none, none, false, none⟩]) ∧
    resW.waypoints.length = (["a", "b"] : List String).length ∧
    resW.legs.length = resW.waypoints.length - 1 ∧
    resW.bbox = bbox_union (resW.waypoints.map (fun w => w.bbox)) ∧
    |resW.total_distance_m - (resW.legs.map (fun l => l.distance_m)).sum| ≤
      ((resW.legs.length : ℚ) + 1) * (1/20) := by
  have hres : resolveWaypoints envR ["a", "b"] =
      (.ok [⟨"A", 0, 0, ⟨0, 0, 1, 1⟩⟩, ⟨"B", 2, 2, ⟨2, 2, 3, 3⟩⟩],
       [.search ⟨"a", 1, none, none, false, none⟩,
        .search ⟨"b", 1, none, none, false, none⟩]) := rfl
  have hroute : route_waypoints fmW envR ["a", "b"] =
      (.ok resW,
       [.search ⟨"a", 1, none, none, false, none⟩,
        .search ⟨"b", 1, none, none, false, none⟩]) := by
    rw [route_waypoints, if_neg (by norm_num), hres]
    norm_num [makeLegs, fmW, bbox_union, resW]
  have h := claim_C6.2 fmW envR ["a", "b"] resW _ hroute
  have hrnd : ∀ x : ℚ, |fmW.round1 x - x| ≤ 1/20 := by
    intro x
    simp only [fmW]
    norm_num
  exact ⟨hroute, h.1, h.2.2.1, h.2.2.2.2.1, h.2.2.2.2.2 hrnd⟩

/-! ### Nearby places: the zero-distance sort defect (C7) -/

/-- C7: evaluating nearby_places at the failing input.  The building-zoom
probe yields place P0 at the query point itself (haversine distance 0, the
smallest possible), the street-zoom probe yields P1 at distance 111194 m;
the two remaining probes and the viewbox search fail and are swallowed
without aborting the call.  Because the sort key `x.distance_m or
float("inf")` treats the falsy distance 0.0 exactly like a missing
distance, the nearest place P0 is sorted last, after P1 — the returned
list is not ascending by distance, contradicting the claim and the
function's own docstring ("List of NearbyItem sorted by distance"). -/
theorem claim_C7 :
    nearby_places fmN envN 10 10 10 [] =
      (.ok [⟨"P1", 11, 10, some 111194, none, none, none⟩,
            ⟨"P0", 10, 10, some 0, none, none, none⟩],
       [.reverse 10 10 18 none, .reverse 10 10 16 none, .reverse 10 10 14 none,
        .reverse 10 10 10 none,
        .search ⟨coordQuery 10 10, 5, none,
          some ⟨10 - 1/100, 10 - 1/100, 10 + 1/100, 10 + 1/100⟩, true, none⟩]) ∧
    nearbySortKey ⟨"P0", 10, 10, some 0, none, none, none⟩ = ⊤ ∧
    ((0 : ℚ) < 111194) := by
  refine ⟨rfl, rfl, by norm_num⟩

/-! ### Bbox synthesis and the rank-0 truthiness defect (C8) -/

/-- C8 counterexample: a raw result carrying place_rank 0 and no bounding
box.  `bbox_buffer_for_rank` itself maps rank 0 to 10.0 degrees, but the
parser's truthiness test `if raw.get("place_rank")` reads the rank 0 as
absent, so the synthesized bbox uses the 0.01-degree default: the west edge
is 5 - 1/100, not 5 - 10 as the claim requires. -/
theorem claim_C8_counterexample :
    (∃ item, parse_search_result rawRank0 = .ok item ∧
      item.bbox = ⟨5 - 1/100, 5 - 1/100, 5 + 1/100, 5 + 1/100⟩) ∧
    bbox_buffer_for_rank rawRank0.place_rank = 10 ∧
    (5 - 1/100 : ℚ) ≠ 5 - bbox_buffer_for_rank rawRank0.place_rank := by
  refine ⟨⟨⟨5, 5, "X", ⟨5 - 1/100, 5 - 1/100, 5 + 1/100, 5 + 1/100⟩,
    none, none, none, none, none, none, none⟩, rfl, rfl⟩, rfl, ?_⟩
  have : bbox_buffer_for_rank rawRank0.place_rank = 10 := rfl
  rw [this]
  norm_num

/-- C8 (amended): a raw result with a truthy (present, non-empty) bounding
box gets the converted box; otherwise the bbox is the square centered on
the point with half-width `bbox_buffer_for_rank` applied to the truthy rank
— where a place_rank of 0 is read as absent by the parser's truthiness
test and therefore gets the 0.01 default rather than the table's 10.0.
`bbox_buffer_for_rank` itself maps ranks 0-4 to 10.0, 5-8 to 2.0, 9-12 to
0.5, 13-16 to 0.1, 17-20 to 0.01, 21-26 to 0.005, 27-30 to 0.001, and
returns the 0.01 default for an absent or out-of-range rank. -/
theorem claim_C8 :
    (∀ (raw : RawPlace) (lat lon : ℚ), raw.lat = some lat → raw.lon = some lon →
      truthyList raw.boundingbox = none →
      parse_search_result raw = .ok
        { lat := lat, lon := lon, display_name := raw.display_name.getD "",
          bbox := ⟨lon - bbox_buffer_for_rank (truthyInt raw.place_rank),
                   lat - bbox_buffer_for_rank (truthyInt raw.place_rank),
                   lon + bbox_buffer_for_rank (truthyInt raw.place_rank),
                   lat + bbox_buffer_for_rank (truthyInt raw.place_rank)⟩,
          osm_type := raw.osm_type, osm_id := truthyInt raw.osm_id,
          importance := truthyRat raw.importance,
          place_rank := truthyInt raw.place_rank, address := raw.address,
          category := raw.category, place_type := raw.place_type }) ∧
    (∀ (raw : RawPlace) (lat lon : ℚ) (l : List ℚ) (bbox : Bbox),
      raw.lat = some lat → raw.lon = some lon →
      truthyList raw.boundingbox = some l → convert_bbox l = .ok bbox →
      parse_search_result raw = .ok
        { lat := lat, lon := lon, display_name := raw.display_name.getD "",
          bbox := bbox, osm_type := raw.osm_type, osm_id := truthyInt raw.osm_id,
          importance := truthyRat raw.importance,
          place_rank := truthyInt raw.place_rank, address := raw.address,
          category := raw.category, place_type := raw.place_type }) ∧
    (∀ (a b c d : ℚ), convert_bbox [a, b, c, d] = .ok ⟨c, a, d, b⟩) ∧
    truthyInt (some 0) = none ∧
    bbox_buffer_for_rank none = 1/100 ∧
    (∀ r : Int,
      (0 ≤ r ∧ r ≤ 4 → bbox_buffer_for_rank (some r) = 10) ∧
      (5 ≤ r ∧ r ≤ 8 → bbox_buffer_for_rank (some r) = 2) ∧
      (9 ≤ r ∧ r ≤ 12 → bbox_buffer_for_rank (some r) = 1/2) ∧
      (13 ≤ r ∧ r ≤ 16 → bbox_buffer_for_rank (some r) = 1/10) ∧
      (17 ≤ r ∧ r ≤ 20 → bbox_buffer_for_rank (some r) = 1/100) ∧
      (21 ≤ r ∧ r ≤ 26 → bbox_buffer_for_rank (some r) = 1/200) ∧
      (27 ≤ r ∧ r ≤ 30 → bbox_buffer_for_rank (some r) = 1/1000) ∧
      ((r < 0 ∨ 30 < r) → bbox_buffer_for_rank (some r) = 1/100)) := by
  refine ⟨?_, ?_, ?_, rfl, rfl, ?_⟩
  · intro raw lat lon hlat hlon hbb
    unfold parse_search_result
    rw [hlat, hlon]
    dsimp only
    rw [hbb]
    rfl
  · intro raw lat lon l bbox hlat hlon hbb hcv
    unfold parse_search_result
    rw [hlat, hlon]
    dsimp only
    rw [hbb]
    dsimp only
    rw [hcv]
    rfl
  · intro a b c d
    rfl
  · intro r
    refine ⟨?_, ?_, ?_, ?_, ?_, ?_, ?_, ?_⟩
    · rintro ⟨h1, h2⟩
      interval_cases r <;> rfl
    · rintro ⟨h1, h2⟩
      interval_cases r <;> rfl
    · rintro ⟨h1, h2⟩
      interval_cases r <;> rfl
    · rintro ⟨h1, h2⟩
      interval_cases r <;> rfl
    · rintro ⟨h1, h2⟩
      interval_cases r <;> rfl
    · rintro ⟨h1, h2⟩
      interval_cases r <;> rfl
    · rintro ⟨h1, h2⟩
      interval_cases r <;> rfl
    · intro h
      have e1 : (decide ((0 : Int) ≤ r) && decide (r ≤ 4)) = false := by
        simp only [Bool.and_eq_false_iff, decide_eq_false_iff_not]
        omega
      have e2 : (decide ((5 : Int) ≤ r) && decide (r ≤ 8)) = false := by
        simp only [Bool.and_eq_false_iff, decide_eq_false_iff_not]
        omega
      have e3 : (decide ((9 : Int) ≤ r) && decide (r ≤ 12)) = false := by
        simp only [Bool.and_eq_false_iff, decide_eq_false_iff_not]
        omega
      have e4 : (decide ((13 : Int) ≤ r) && decide (r ≤ 16)) = false := by
        simp only [Bool.and_eq_false_iff, decide_eq_false_iff_not]
        omega
      have e5 : (decide ((17 : Int) ≤ r) && decide (r ≤ 20)) = false := by
        simp only [Bool.and_eq_false_iff, decide_eq_false_iff_not]
        omega
      have e6 : (decide ((21 : Int) ≤ r) && decide (r ≤ 26)) = false := by
        simp only [Bool.and_eq_false_iff, decide_eq_false_iff_not]
        omega
      have e7 : (decide ((27 : Int) ≤ r) && decide (r ≤ 30)) = false := by
        simp only [Bool.and_eq_false_iff, decide_eq_false_iff_not]
        omega
      simp [bbox_buffer_for_rank, PLACE_RANK_BUFFERS, List.find?, e1, e2, e3, e4, e5, e6, e7,
        DEFAULT_BBOX_BUFFER]

theorem claim_C8_witness :
    (parse_search_result rawRank0 = .ok
      { lat := 5, lon := 5, display_name := "X",
        bbox := ⟨5 - bbox_buffer_for_rank (truthyInt (some 0)),
                 5 - bbox_buffer_for_rank (truthyInt (some 0)),
                 5 + bbox_buffer_for_rank (truthyInt (some 0)),
                 5 + bbox_buffer_for_rank (truthyInt (some 0))⟩,
        osm_type := none, osm_id := none, importance := none,
        place_rank := truthyInt (some 0), address := none, category := none,
        place_type := none }) ∧
    parse_search_result rawG = .ok itemG ∧
    ((0 : Int) ≤ 3 ∧ (3 : Int) ≤ 4 ∧ bbox_buffer_for_rank (some 3) = 10) ∧
    ((30 : Int) < 99 ∧ bbox_buffer_for_rank (some 99) = 1/100) := by
  refine ⟨?_, ?_, ⟨by norm_num, by norm_num, ?_⟩, ⟨by norm_num, ?_⟩⟩
  · exact claim_C8.1 rawRank0 5 5 rfl rfl rfl
  · have h := claim_C8.2.1 rawG 1 2 [1, 2, 3, 4] ⟨3, 1, 4, 2⟩ rfl rfl rfl rfl
    rw [h]
    rfl
  · exact ((claim_C8.2.2.2.2.2 3).1) (by norm_num)
  · exact ((claim_C8.2.2.2.2.2 99).2.2.2.2.2.2.2) (by norm_num)

/-! ### Validation ordering (C9) -/

/-- C9 counterexample: routeWaypoints with a valid first waypoint and a
whitespace-only second waypoint performs the network call for the first
waypoint before raising the validation error for the second — the
validation error is not raised before any network call is made. -/
theorem claim_C9_counterexample :
    route_waypoints fmW envR ["a", "   "] =
      (.error (.valueError EMPTY_QUERY),
       [.search ⟨"a", 1, none, none, false, none⟩]) ∧
    ([ClientCall.search ⟨"a", 1, none, none, false, none⟩] : List ClientCall) ≠ [] := by
  exact ⟨rfl, by decide⟩

/-- C9 (amended): each orchestrator operation validates its own direct
arguments before any network call — an out-of-range latitude or longitude
makes reverse_geocode, nearby_places and admin_boundaries fail immediately
with a validation error naming the offending value and its range, with an
empty call list; an empty or whitespace-only query makes geocode and
bbox_from_place fail immediately with the fixed empty-query message and no
call; route_waypoints checks the waypoint count before any call, and a
whitespace-only FIRST waypoint fails before any call — but a later invalid
waypoint is only detected when that waypoint is reached, after the earlier
waypoints' network calls (see the counterexample). -/
theorem claim_C9 :
    (∀ (env : Env) (lat lon : ℚ) (zoom : Nat) (lang : Option String),
      ¬(-90 ≤ lat ∧ lat ≤ 90) →
      reverse_geocode env lat lon zoom lang = (.error (.valueError (INVALID_LAT lat)), [])) ∧
    (∀ (env : Env) (lat lon : ℚ) (zoom : Nat) (lang : Option String),
      (-90 ≤ lat ∧ lat ≤ 90) → ¬(-180 ≤ lon ∧ lon ≤ 180) →
      reverse_geocode env lat lon zoom lang = (.error (.valueError (INVALID_LON lon)), [])) ∧
    (∀ (fm : FloatModel) (env : Env) (lat lon : ℚ) (limit : Nat) (cats : List String),
      ¬(-90 ≤ lat ∧ lat ≤ 90) →
      nearby_places fm env lat lon limit cats = (.error (.valueError (INVALID_LAT lat)), [])) ∧
    (∀ (fm : FloatModel) (env : Env) (lat lon : ℚ) (limit : Nat) (cats : List String),
      (-90 ≤ lat ∧ lat ≤ 90) → ¬(-180 ≤ lon ∧ lon ≤ 180) →
      nearby_places fm env lat lon limit cats = (.error (.valueError (INVALID_LON lon)), [])) ∧
    (∀ (env : Env) (lat lon : ℚ), ¬(-90 ≤ lat ∧ lat ≤ 90) →
      admin_boundaries env lat lon = (.error (.valueError (INVALID_LAT lat)), [])) ∧
    (∀ (env : Env) (lat lon : ℚ), (-90 ≤ lat ∧ lat ≤ 90) → ¬(-180 ≤ lon ∧ lon ≤ 180) →
      admin_boundaries env lat lon = (.error (.valueError (INVALID_LON lon)), [])) ∧
    (∀ (env : Env) (q : String) (limit : Nat) (cc lang : Option String),
      queryInvalid q = true →
      geocode env q limit cc lang = (.error (.valueError EMPTY_QUERY), [])) ∧
    (∀ (fm : FloatModel) (env : Env) (q : String) (padding : ℚ),
      queryInvalid q = true →
      bbox_from_place fm env q padding = (.error (.valueError EMPTY_QUERY), [])) ∧
    (∀ (fm : FloatModel) (env : Env) (wps : List String), wps.length < 2 →
      route_waypoints fm env wps = (.error (.valueError WAYPOINTS_MIN), [])) ∧
    (∀ (fm : FloatModel) (env : Env) (q : String) (rest : List String),
      queryInvalid q = true → rest ≠ [] →
      route_waypoints fm env (q :: rest) = (.error (.valueError EMPTY_QUERY), [])) := by
  have hval1 : ∀ (lat lon : ℚ), ¬(-90 ≤ lat ∧ lat ≤ 90) →
      validate_coordinates lat lon = some (.valueError (INVALID_LAT lat)) := by
    intro lat lon h
    unfold validate_coordinates
    rw [if_pos h]
  have hval2 : ∀ (lat lon : ℚ), (-90 ≤ lat ∧ lat ≤ 90) → ¬(-180 ≤ lon ∧ lon ≤ 180) →
      validate_coordinates lat lon = some (.valueError (INVALID_LON lon)) := by
    intro lat lon h1 h2
    unfold validate_coordinates
    rw [if_neg (by simpa using h1), if_pos h2]
  refine ⟨?_, ?_, ?_, ?_, ?_, ?_, ?_, ?_, ?_, ?_⟩
  · intro env lat lon zoom lang h
    unfold reverse_geocode
    rw [hval1 lat lon h]
  · intro env lat lon zoom lang h1 h2
    unfold reverse_geocode
    rw [hval2 lat lon h1 h2]
  · intro fm env lat lon limit cats h
    unfold nearby_places
    rw [hval1 lat lon h]
  · intro fm env lat lon limit cats h1 h2
    unfold nearby_places
    rw [hval2 lat lon h1 h2]
  · intro env lat lon h
    unfold admin_boundaries
    rw [hval1 lat lon h]
  · intro env lat lon h1 h2
    unfold admin_boundaries
    rw [hval2 lat lon h1 h2]
  · intro env q limit cc lang h
    unfold geocode
    rw [if_pos h]
  · intro fm env q padding h
    unfold bbox_from_place
    rw [if_pos h]
  · intro fm env wps h
    rw [route_waypoints, if_pos h]
  · intro fm env q rest hq hrest
    have hg : geocode env q 1 none none = (.error (.valueError EMPTY_QUERY), []) := by
      unfold geocode
      rw [if_pos hq]
    have hlen : ¬((q :: rest).length < 2) := by
      have := List.length_pos.mpr hrest
      simp only [List.length_cons]
      omega
    rw [route_waypoints, if_neg hlen]
    rw [resolveWaypoints, hg]

theorem claim_C9_witness :
    (¬(-90 ≤ (91 : ℚ) ∧ (91 : ℚ) ≤ 90) ∧
      reverse_geocode envB 91 0 18 none = (.error (.valueError (INVALID_LAT 91)), [])) ∧
    ((-90 ≤ (45 : ℚ) ∧ (45 : ℚ) ≤ 90) ∧ ¬(-180 ≤ (181 : ℚ) ∧ (181 : ℚ) ≤ 180) ∧
      nearby_places fmW envB 45 181 10 [] = (.error (.valueError (INVALID_LON 181)), [])) ∧
    admin_boundaries envB (-91) 0 = (.error (.valueError (INVALID_LAT (-91))), []) ∧
    (queryInvalid "  " = true ∧
      geocode envB "  " 5 none none = (.error (.valueError EMPTY_QUERY), []) ∧
      bbox_from_place fmW envB "  " 0 = (.error (.valueError EMPTY_QUERY), [])) ∧
    route_waypoints fmW envB ["x"] = (.error (.valueError WAYPOINTS_MIN), []) ∧
    route_waypoints fmW envB ["  ", "b"] = (.error (.valueError EMPTY_QUERY), []) := by
  refine ⟨⟨by norm_num, ?_⟩, ⟨⟨by norm_num, by norm_num⟩, by norm_num, ?_⟩, ?_, ⟨by decide, ?_, ?_⟩, ?_, ?_⟩
  · exact claim_C9.1 envB 91 0 18 none (by norm_num)
  · exact claim_C9.2.2.2.1 fmW envB 45 181 10 [] (by norm_num) (by norm_num)
  · exact claim_C9.2.2.2.2.1 envB (-91) 0 (by norm_num)
  · exact claim_C9.2.2.2.2.2.2.1 envB "  " 5 none none (by decide)
  · exact claim_C9.2.2.2.2.2.2.2.1 fmW envB "  " 0 (by decide)
  · exact claim_C9.2.2.2.2.2.2.2.2.1 fmW envB ["x"] (by norm_num)
  · exact claim_C9.2.2.2.2.2.2.2.2.2 fmW envB "  " ["b"] (by decide) (by decide)

end Geo
